import Mathlib

/-!
Verification development for the evo-server tick engine.

This file gives a shallow embedding, in Lean 4, of the parts of the Rust
sources that the frozen claims are about:

* `src/world/cell.rs` — the `CellType` sum type and its food operations;
* `src/world/mod.rs` and `src/world/resources.rs` — the grid, neighbor
  queries and food regeneration;
* `src/creature/metabolism.rs` — bounded energy/health bookkeeping;
* `src/creature/genome.rs` and `src/creature/reproduction.rs` — genomes and
  offspring creation;
* `src/creature/neural_net.rs` — the action type, softmax and the stochastic
  action-selection loop of `decide_action`;
* `src/simulation/mod.rs` — the spatial index and `SimulationState` helpers;
* `src/simulation/tick.rs` — the per-tick update: metabolic steps, action
  dispatch, reproduction, birth commit, death materialization and the
  extinction failsafe.

Modelling conventions, fixed once here:

* Rust `f64` quantities (energy, health, costs, probabilities) are embedded
  as exact rationals `ℚ`; all comparisons in the source are plain orderings,
  so branch structure is preserved exactly.  The literal `0.9` used by
  `decay_damage_memory` is embedded as `9/10`.
* Rust `usize`/`u32`/`u64` become `Nat`.  The one place the source relies on
  wrapping subtraction (`wrapping_sub(1)` when probing a neighbor row or
  column) is embedded by `wsub1`, which produces `2^64 - 1` at zero exactly
  as release-mode Rust does, so the out-of-bounds check that follows behaves
  identically.  `current_tick - last_reproduce_tick` in `can_reproduce` uses
  truncated `Nat` subtraction; in the source the left operand is always the
  larger one.
* Every source of randomness (the shuffled processing order, the action
  sampled by each creature's network, the uniform choices of empty neighbor
  cells, mutation rerolls, food-regeneration positions and resurrection
  position draws) is supplied by a `TickOracle` of explicit functions, the
  standard shallow embedding of a pseudo-random stream: a theorem quantified
  over the oracle covers every possible draw.  Uniform range draws
  `gen_range(0..n)` are embedded as an arbitrary oracle value taken `% n`.
* The `HashMap<u64, Creature>` is embedded as an association list with the
  usual operations; iteration order, where the source iterates a `HashMap`
  directly (the death sweep), is the list order.
* A creature's `brain` field only matters to the tick engine through the
  action it samples, which the oracle provides, so the embedded `Creature`
  omits it; the network itself is embedded separately for the claims about
  `decide_action` and `compute_probabilities`, with the transcendental
  `tanh` and `exp` of `f64` abstracted as function parameters.
-/

/-! ## Cells (`src/world/cell.rs`) -/

inductive CellType where
  | Empty : CellType
  | Food (amount : Nat) (is_meat : Bool) (age : Nat) : CellType
deriving DecidableEq, Repr

namespace CellType

def isEmptyCell : CellType → Bool
  | .Empty => true
  | .Food _ _ _ => false

def isFood : CellType → Bool
  | .Empty => false
  | .Food _ _ _ => true

def foodAmount : CellType → Nat
  | .Food a _ _ => a
  | .Empty => 0

def isMeat : CellType → Bool
  | .Food _ m _ => m
  | .Empty => false

/-- `CellType::add_food`: same kind accumulates (saturating at `max`) and
resets age; a different kind replaces the cell; an empty cell becomes food. -/
def addFood (c : CellType) (amount max : Nat) (is_meat : Bool) : CellType :=
  match c with
  | .Food current current_is_meat _ =>
      if current_is_meat ≠ is_meat then .Food (min amount max) is_meat 0
      else .Food (min (current + amount) max) is_meat 0
  | .Empty => .Food (min amount max) is_meat 0

/-- `CellType::consume_food`: returns `((amount, is_meat), cell after)`. -/
def consumeFood (c : CellType) : (Nat × Bool) × CellType :=
  match c with
  | .Food a m _ => ((a, m), .Empty)
  | .Empty => ((0, false), .Empty)

def ageFood (c : CellType) : CellType :=
  match c with
  | .Food a m age => .Food a m (age + 1)
  | .Empty => .Empty

def shouldDecay (c : CellType) (plant_decay_ticks meat_decay_ticks : Nat) : Bool :=
  match c with
  | .Food _ m age => if m then meat_decay_ticks ≤ age else plant_decay_ticks ≤ age
  | .Empty => false

end CellType

/-! ## Metabolism (`src/creature/metabolism.rs`) -/

structure Metabolism where
  energy : ℚ
  max_energy : ℚ
  health : ℚ
  max_health : ℚ
deriving DecidableEq, Repr

namespace Metabolism

/-- `Metabolism::new`: energy clamped to `max_energy`, health starts at the
default maximum 100. -/
def new (initial_energy max_energy : ℚ) : Metabolism :=
  { energy := min initial_energy max_energy
    max_energy := max_energy
    health := 100
    max_health := 100 }

def isAlive (m : Metabolism) : Bool := decide (0 < m.health)

/-- `Metabolism::consume_energy`: subtract and report success if affordable,
otherwise zero the energy and report failure. -/
def consumeEnergy (m : Metabolism) (amount : ℚ) : Bool × Metabolism :=
  if amount ≤ m.energy then (true, { m with energy := m.energy - amount })
  else (false, { m with energy := 0 })

def gainEnergy (m : Metabolism) (amount : ℚ) : Metabolism :=
  { m with energy := min (m.energy + amount) m.max_energy }

def canAfford (m : Metabolism) (cost : ℚ) : Bool := decide (cost ≤ m.energy)

def takeDamage (m : Metabolism) (amount : ℚ) : Metabolism :=
  { m with health := max (m.health - amount) 0 }

def heal (m : Metabolism) (amount : ℚ) : Metabolism :=
  { m with health := min (m.health + amount) m.max_health }

/-- `Metabolism::passive_heal`: heal `healing_amount` and pay `energy_cost`
when below full health and the cost is affordable. -/
def passiveHeal (m : Metabolism) (healing_amount energy_cost : ℚ) : Bool × Metabolism :=
  if m.health < m.max_health ∧ energy_cost ≤ m.energy then
    (true, ((m.heal healing_amount).consumeEnergy energy_cost).2)
  else (false, m)

end Metabolism

/-! ## Genome (`src/creature/genome.rs`) -/

structure Genome where
  genes : List Nat
  generation : Nat
deriving DecidableEq, Repr

namespace Genome

/-- `Genome::from_parent`: each byte is independently rerolled with the
configured mutation probability.  The per-byte random decisions (whether to
reroll, and the fresh byte) are supplied by the oracle function `mutf`:
`mutf i = some b` rerolls position `i` to `b % 256`, `mutf i = none` keeps the
parent byte.  The generation counter increments. -/
def fromParent (parent : Genome) (mutf : Nat → Option Nat) : Genome :=
  { genes := parent.genes.enum.map (fun p =>
      match mutf p.1 with
      | some b => b % 256
      | none => p.2)
    generation := parent.generation + 1 }

end Genome

/-! ## Creature (`src/creature/mod.rs`, `src/creature/reproduction.rs`) -/

structure Creature where
  id : Nat
  x : Nat
  y : Nat
  genome : Genome
  metabolism : Metabolism
  last_reproduce_tick : Nat
  age : Nat
  offspring_count : Nat
  last_damage_taken : ℚ
deriving DecidableEq, Repr

namespace Creature

/-- `Creature::new` (the `nn_config` argument only builds the brain, which
the embedding replaces by the oracle, so it is dropped). -/
def new (id x y : Nat) (genome : Genome) (initial_energy max_energy : ℚ) : Creature :=
  { id := id, x := x, y := y, genome := genome
    metabolism := Metabolism.new initial_energy max_energy
    last_reproduce_tick := 0, age := 0, offspring_count := 0, last_damage_taken := 0 }

def isAlive (c : Creature) : Bool := c.metabolism.isAlive

def energy (c : Creature) : ℚ := c.metabolism.energy

def gainEnergy (c : Creature) (amount : ℚ) : Creature :=
  { c with metabolism := c.metabolism.gainEnergy amount }

/-- `Creature::can_reproduce`: affordability of `min_energy` and cooldown
elapsed (the source computes `current_tick - last_reproduce_tick` on `u64`;
in every call the current tick is at least the stored tick). -/
def canReproduce (c : Creature) (min_energy : ℚ) (current_tick cooldown : Nat) : Bool :=
  c.metabolism.canAfford min_energy && decide (cooldown ≤ current_tick - c.last_reproduce_tick)

def recordDamage (c : Creature) (damage : ℚ) : Creature :=
  { c with last_damage_taken := damage }

def decayDamageMemory (c : Creature) (decay_rate : ℚ) : Creature :=
  { c with last_damage_taken := c.last_damage_taken * decay_rate }

def incrementOffspring (c : Creature) : Creature :=
  { c with offspring_count := c.offspring_count + 1 }

/-- `Creature::reproduce`: when `energy_cost` is affordable, pay it, stamp
`last_reproduce_tick`, and build the offspring from the mutated genome;
returns `(offspring?, parent after)`.  The mutation randomness is the oracle
function `mutf` (see `Genome.fromParent`). -/
def reproduce (c : Creature) (offspring_id target_x target_y : Nat)
    (mutf : Nat → Option Nat) (energy_cost initial_energy max_energy : ℚ)
    (current_tick : Nat) : Option Creature × Creature :=
  if c.metabolism.canAfford energy_cost then
    (some (Creature.new offspring_id target_x target_y (c.genome.fromParent mutf)
        initial_energy max_energy),
      { c with metabolism := (c.metabolism.consumeEnergy energy_cost).2
               last_reproduce_tick := current_tick })
  else (none, c)

end Creature

/-! ## World grid (`src/world/mod.rs`, `src/world/resources.rs`) -/

structure World where
  width : Nat
  height : Nat
  grid : List CellType
deriving DecidableEq, Repr

namespace World

/-- `World::get`: `none` out of bounds, otherwise the cell at row-major
index `y * width + x`. -/
def get (w : World) (x y : Nat) : Option CellType :=
  if w.width ≤ x ∨ w.height ≤ y then none
  else w.grid.get? (y * w.width + x)

/-- The effect of a `World::get_mut` followed by a cell mutation: apply `f`
to the addressed cell when it exists, otherwise leave the world unchanged. -/
def modifyCell (w : World) (x y : Nat) (f : CellType → CellType) : World :=
  match w.get x y with
  | some c => { w with grid := w.grid.set (y * w.width + x) (f c) }
  | none => w

/-- Write a cell through `World::get_mut` (used by `try_eat` to store the
emptied cell back). -/
def setCell (w : World) (x y : Nat) (c : CellType) : World :=
  if w.width ≤ x ∨ w.height ≤ y then w
  else { w with grid := w.grid.set (y * w.width + x) c }

/-- The `(dx, dy)` visit order of `World::neighbors`: `dx` outer, `dy`
inner, skipping `(0, 0)`. -/
def neighborDeltas : List (Int × Int) :=
  [(-1, -1), (-1, 0), (-1, 1), (0, -1), (0, 1), (1, -1), (1, 0), (1, 1)]

/-- `World::neighbors`: in-bounds Moore neighbors, no wrap-around. -/
def neighbors (w : World) (x y : Nat) : List (Nat × Nat) :=
  neighborDeltas.filterMap (fun d =>
    let nx : Int := (x : Int) + d.1
    let ny : Int := (y : Int) + d.2
    if 0 ≤ nx ∧ nx < (w.width : Int) ∧ 0 ≤ ny ∧ ny < (w.height : Int) then
      some (nx.toNat, ny.toNat)
    else none)

/-- `World::empty_neighbors`: neighbors whose cell is `Empty` in the food
grid.  Creature occupancy is not consulted. -/
def emptyNeighbors (w : World) (x y : Nat) : List (Nat × Nat) :=
  (w.neighbors x y).filter (fun p =>
    match w.get p.1 p.2 with
    | some c => c.isEmptyCell
    | none => false)

/-- `World::regenerate_food`: sample `round(width * height * rate)` cells
(positions from the oracle stream `draws`, reduced mod the dimensions as the
embedding of `gen_range`) and add one unit of plant food to each. -/
def regenerateFood (w : World) (rate : ℚ) (max_per_cell : Nat)
    (draws : Nat → Nat × Nat) : World :=
  let num := Int.toNat (round (((w.width * w.height : Nat) : ℚ) * rate))
  (List.range num).foldl (fun acc k =>
    let p := draws k
    acc.modifyCell (p.1 % acc.width) (p.2 % acc.height)
      (fun c => c.addFood 1 max_per_cell false)) w

/-- Modelled from the spec: `World::age_and_decay_food` is invoked by the
tick engine (`src/simulation/tick.rs` line 23) but its definition is not
among the provided source files.  Per the spec (§4.4, §4.6 step 1): for
every food cell increment its age, then empty the cell once it has reached
the decay threshold of its kind. -/
def ageAndDecayFood (w : World) (plant_decay_ticks meat_decay_ticks : Nat) : World :=
  { w with grid := w.grid.map (fun c =>
      let c := c.ageFood
      if c.shouldDecay plant_decay_ticks meat_decay_ticks then .Empty else c) }

end World

/-! ## Spatial index (`src/simulation/mod.rs`) -/

structure SpatialIndex where
  width : Nat
  height : Nat
  cells : List (Option Nat)
deriving DecidableEq, Repr

namespace SpatialIndex

def get (idx : SpatialIndex) (x y : Nat) : Option Nat :=
  (idx.cells.get? (y * idx.width + x)).getD none

def set (idx : SpatialIndex) (x y cid : Nat) : SpatialIndex :=
  { idx with cells := idx.cells.set (y * idx.width + x) (some cid) }

def clear (idx : SpatialIndex) (x y : Nat) : SpatialIndex :=
  { idx with cells := idx.cells.set (y * idx.width + x) none }

end SpatialIndex

/-! ## Directions and actions (`src/simulation/tick.rs`, `src/creature/neural_net.rs`) -/

inductive Direction where
  | Up : Direction
  | Down : Direction
  | Left : Direction
  | Right : Direction
deriving DecidableEq, Repr

/-- The `Action` enum of `src/creature/neural_net.rs` (named `NNAction` here
because Mathlib already declares `Action`). -/
inductive NNAction where
  | Stay : NNAction
  | MoveUp : NNAction
  | MoveDown : NNAction
  | MoveLeft : NNAction
  | MoveRight : NNAction
  | Attack : NNAction
  | Reproduce : NNAction
  | ShareEnergy : NNAction
  | SprintUp : NNAction
  | SprintDown : NNAction
  | SprintLeft : NNAction
  | SprintRight : NNAction
  | Rest : NNAction
deriving DecidableEq, Repr

namespace NNAction

/-- `Action::from_index`: the fixed index-to-action mapping used by
`decide_action`; anything at index 12 or above falls to `Stay`. -/
def fromIndex (index : Nat) : NNAction :=
  match index with
  | 0 => .MoveUp
  | 1 => .MoveDown
  | 2 => .MoveLeft
  | 3 => .MoveRight
  | 4 => .Attack
  | 5 => .Reproduce
  | 6 => .ShareEnergy
  | 7 => .SprintUp
  | 8 => .SprintDown
  | 9 => .SprintLeft
  | 10 => .SprintRight
  | 11 => .Rest
  | _ => .Stay

def toDelta (a : NNAction) : Int × Int :=
  match a with
  | .Stay => (0, 0)
  | .MoveUp => (0, -1)
  | .MoveDown => (0, 1)
  | .MoveLeft => (-1, 0)
  | .MoveRight => (1, 0)
  | .SprintUp => (0, -1)
  | .SprintDown => (0, 1)
  | .SprintLeft => (-1, 0)
  | .SprintRight => (1, 0)
  | .Attack => (0, 0)
  | .Reproduce => (0, 0)
  | .ShareEnergy => (0, 0)
  | .Rest => (0, 0)

def isMovement (a : NNAction) : Bool :=
  match a with
  | .MoveUp | .MoveDown | .MoveLeft | .MoveRight
  | .SprintUp | .SprintDown | .SprintLeft | .SprintRight => true
  | _ => false

end NNAction

/-! ## Association-list creature map (embedding of `HashMap<u64, Creature>`) -/

def lookupC : List (Nat × Creature) → Nat → Option Creature
  | [], _ => none
  | p :: rest, cid => if p.1 = cid then some p.2 else lookupC rest cid

/-- The effect of mutating one entry through `HashMap::get_mut`. -/
def modifyC : List (Nat × Creature) → Nat → (Creature → Creature) → List (Nat × Creature)
  | [], _, _ => []
  | p :: rest, cid, f =>
      if p.1 = cid then (p.1, f p.2) :: modifyC rest cid f
      else p :: modifyC rest cid f

/-- `HashMap::insert`: replace the entry when the key is present, otherwise
add a new entry. -/
def insertC : List (Nat × Creature) → Nat → Creature → List (Nat × Creature)
  | [], cid, c => [(cid, c)]
  | p :: rest, cid, c =>
      if p.1 = cid then (cid, c) :: rest else p :: insertC rest cid c

def keysOf (m : List (Nat × Creature)) : List Nat := m.map Prod.fst

/-! ## Attack map (`attacks_this_tick : HashMap<u64, Vec<Direction>>`) -/

/-- `attacks_this_tick.entry(victim).or_insert_with(Vec::new).push(dir)`. -/
def attacksPush : List (Nat × List Direction) → Nat → Direction → List (Nat × List Direction)
  | [], victim, d => [(victim, [d])]
  | p :: rest, victim, d =>
      if p.1 = victim then (p.1, p.2 ++ [d]) :: rest
      else p :: attacksPush rest victim d

def attacksGet : List (Nat × List Direction) → Nat → List Direction
  | [], _ => []
  | p :: rest, victim => if p.1 = victim then p.2 else attacksGet rest victim

/-! ## Simulation state (`src/simulation/mod.rs`) -/

structure SimulationState where
  world : World
  creatures : List (Nat × Creature)
  creature_positions : SpatialIndex
  attacks_last_tick : List (Nat × List Direction)
  recently_dead : List Creature
  tick : Nat
  next_creature_id : Nat
  total_births : Nat
  total_deaths : Nat
deriving DecidableEq, Repr

namespace SimulationState

/-- `SimulationState::creature_at`: spatial-index query guarded by the
index bounds. -/
def creatureAt (s : SimulationState) (x y : Nat) : Option Nat :=
  if x < s.creature_positions.width ∧ y < s.creature_positions.height then
    s.creature_positions.get x y
  else none

/-- `SimulationState::can_spawn_new_creature`: `max_population = 0` means
unlimited; otherwise the committed population must be strictly below the
cap.  Pending offspring are not counted. -/
def canSpawn (s : SimulationState) (max_population : Nat) : Bool :=
  if max_population = 0 then true
  else decide (s.creatures.length < max_population)

/-- `SimulationState::update_creature_position`: clear the old cell when in
bounds, then set the new cell. -/
def updateCreaturePosition (s : SimulationState) (cid old_x old_y new_x new_y : Nat) :
    SimulationState :=
  let idx :=
    if old_x < s.creature_positions.width ∧ old_y < s.creature_positions.height then
      s.creature_positions.clear old_x old_y
    else s.creature_positions
  { s with creature_positions := idx.set new_x new_y cid }

/-- `SimulationState::remove_creature_from_position`. -/
def removeCreatureFromPosition (s : SimulationState) (x y : Nat) : SimulationState :=
  if x < s.creature_positions.width ∧ y < s.creature_positions.height then
    { s with creature_positions := s.creature_positions.clear x y }
  else s

end SimulationState

/-! ## The tick oracle and per-tick working context -/

/-- All pseudo-random draws consumed by one `tick` call, supplied as
explicit functions (see the header note on randomness).  `order` is the
shuffled snapshot of creature ids; `act` the action sampled by each
creature's network; `pickDispatch`/`pickStepH` index the uniform choice of
`empty.choose` at the two `find_empty_neighbor` call sites; `mutDispatch`
and `mutStepH` drive the genome mutation of the corresponding
`Creature::reproduce` call; `regenDraw` the positions of
`World::regenerate_food`; `resDraw i k` the `k`-th position drawn for the
`i`-th resurrected creature. -/
structure TickOracle where
  order : List Nat
  act : Nat → NNAction
  pickDispatch : Nat → Nat
  pickStepH : Nat → Nat
  mutDispatch : Nat → Nat → Option Nat
  mutStepH : Nat → Nat → Option Nat
  regenDraw : Nat → Nat × Nat
  resDraw : Nat → Nat → Nat × Nat

/-- The mutable context threaded through the per-creature loop: the
simulation state, the `new_creatures` pending-birth list and the
`attacks_this_tick` map. -/
structure TickCtx where
  s : SimulationState
  pending : List Creature
  attacks : List (Nat × List Direction)
deriving DecidableEq, Repr

/-! ## Tick-engine helpers (`src/simulation/tick.rs`) -/

/-- `usize::wrapping_sub(1)` on a value below `2^64`: at zero it wraps to
`usize::MAX`, which every subsequent bounds check rejects. -/
def wsub1 (n : Nat) : Nat := if n = 0 then 18446744073709551615 else n - 1

/-- `SimulationState::find_empty_neighbor`: a uniformly chosen element of
`empty_neighbors` (the oracle supplies the choice `pick`, reduced mod the
list length), or `none` when the list is empty. -/
def findEmptyNeighbor (w : World) (x y pick : Nat) : Option (Nat × Nat) :=
  let e := w.emptyNeighbors x y
  if e.isEmpty then none else e.get? (pick % e.length)

/-- Steps 3a–3d of the loop body: increment age, decay the damage memory by
`0.9`, old-age death, the per-tick energy debit with the starvation check,
and the passive-healing attempt. -/
def stepAtoE (cfg_max_age_ticks : Nat) (cfg_energy_cost_per_tick : ℚ)
    (cfg_health_regen_rate cfg_health_regen_energy_cost : ℚ) (c : Creature) : Creature :=
  let c := { c with age := c.age + 1,
                    last_damage_taken := c.last_damage_taken * (9 / 10 : ℚ) }
  let c := if cfg_max_age_ticks ≤ c.age then
      { c with metabolism := c.metabolism.takeDamage c.metabolism.health } else c
  let c := { c with metabolism := (c.metabolism.consumeEnergy cfg_energy_cost_per_tick).2 }
  let c := if c.metabolism.energy ≤ 0 then
      { c with metabolism := c.metabolism.takeDamage c.metabolism.health } else c
  { c with metabolism :=
      (c.metabolism.passiveHeal cfg_health_regen_rate cfg_health_regen_energy_cost).2 }

/-! ## Configuration (`src/config.rs`), restricted to the fields the tick
engine reads -/

structure WorldConfig where
  width : Nat
  height : Nat
  initial_food_density : ℚ
  food_regen_rate : ℚ
  max_food_per_cell : Nat
  plant_decay_ticks : Nat
  meat_decay_ticks : Nat
deriving Repr

structure CreatureConfig where
  initial_population : Nat
  max_population : Nat
  initial_energy : ℚ
  max_energy : ℚ
  energy_per_food : ℚ
  energy_cost_per_tick : ℚ
  energy_cost_move : ℚ
  energy_cost_reproduce : ℚ
  min_reproduce_energy : ℚ
  reproduce_cooldown_ticks : Nat
  max_age_ticks : Nat
  energy_cost_sprint : ℚ
  energy_share_amount : ℚ
  rest_energy_multiplier : ℚ
  rest_healing_multiplier : ℚ
deriving Repr

structure CombatConfig where
  damage_per_attack : ℚ
  damage_per_strong_attack : ℚ
  health_regen_rate : ℚ
  health_regen_energy_cost : ℚ
deriving Repr

structure Config where
  world : WorldConfig
  creature : CreatureConfig
  combat : CombatConfig
deriving Repr

/-! ## Action handlers (`src/simulation/tick.rs`) -/

/-- `SimulationState::try_eat`: if the creature's cell is food, consume it
and credit `amount * energy_per_food`. -/
def tryEat (cfg : Config) (ctx : TickCtx) (cid : Nat) : TickCtx :=
  match lookupC ctx.s.creatures cid with
  | none => ctx
  | some c =>
    match ctx.s.world.get c.x c.y with
    | none => ctx
    | some cell =>
      if cell.isFood then
        let r := cell.consumeFood
        let gain : ℚ := (r.1.1 : ℚ) * cfg.creature.energy_per_food
        { ctx with s := { ctx.s with
            world := ctx.s.world.setCell c.x c.y r.2,
            creatures := modifyC ctx.s.creatures cid (fun c0 => c0.gainEnergy gain) } }
      else ctx

/-- The clamped move target of `handle_move_action`:
`(x + dx).max(0).min(width - 1)` and likewise for `y` (as `i32`
arithmetic; `Int.toNat` matches the `as usize` cast for any world with
positive dimensions, where the clamped value is nonnegative). -/
def moveTarget (w : World) (x y : Nat) (a : NNAction) : Nat × Nat :=
  let d := a.toDelta
  (Int.toNat (min (max ((x : Int) + d.1) 0) ((w.width : Int) - 1)),
   Int.toNat (min (max ((y : Int) + d.2) 0) ((w.height : Int) - 1)))

/-- The attack direction recorded against the occupant of the move target:
the opposite of the mover's motion (`unreachable!` in the source for
non-movement actions; `Direction.Up` stands in for that dead branch). -/
def oppositeDir (a : NNAction) : Direction :=
  match a with
  | .MoveUp | .SprintUp => .Down
  | .MoveDown | .SprintDown => .Up
  | .MoveLeft | .SprintLeft => .Right
  | .MoveRight | .SprintRight => .Left
  | _ => .Up

/-- `SimulationState::handle_move_action`.  The target occupant is looked
up before the energy debit; the debit happens unconditionally; on success
either the occupant is struck (position unchanged) or the creature moves
into an empty-or-food cell and tries to eat there. -/
def handleMove (cfg : Config) (ctx : TickCtx) (cid x y : Nat) (a : NNAction)
    (energy_cost : ℚ) : TickCtx :=
  let t := moveTarget ctx.s.world x y a
  let target_creature_id := ctx.s.creatureAt t.1 t.2
  match lookupC ctx.s.creatures cid with
  | none => ctx
  | some c =>
    let r := c.metabolism.consumeEnergy energy_cost
    let ctx1 : TickCtx := { ctx with s := { ctx.s with
        creatures := modifyC ctx.s.creatures cid
          (fun c0 => { c0 with metabolism := (c0.metabolism.consumeEnergy energy_cost).2 }) } }
    if r.1 then
      match target_creature_id with
      | some target_id =>
        match lookupC ctx1.s.creatures target_id with
        | none => ctx1
        | some _ =>
          let dmg := cfg.combat.damage_per_attack
          let strike := fun t0 =>
            ({ t0 with metabolism := t0.metabolism.takeDamage dmg } : Creature).recordDamage dmg
          { ctx1 with
            s := { ctx1.s with creatures := modifyC ctx1.s.creatures target_id strike },
            attacks := attacksPush ctx1.attacks target_id (oppositeDir a) }
      | none =>
        match ctx1.s.world.get t.1 t.2 with
        | none => ctx1
        | some cell =>
          if cell.isEmptyCell || cell.isFood then
            let s2 := ctx1.s.updateCreaturePosition cid x y t.1 t.2
            let setPos := fun c0 => { c0 with x := t.1, y := t.2 : Creature }
            let s3 := { s2 with creatures := modifyC s2.creatures cid setPos }
            tryEat cfg { ctx1 with s := s3 } cid
          else ctx1
    else ctx1

/-- One iteration of the adjacency loop of `handle_attack_action`: strike
the occupant of the given cell (if any) with `damage_per_strong_attack` and
record the direction. -/
def attackStrike (cfg : Config) (acc : TickCtx) (pd : (Nat × Nat) × Direction) : TickCtx :=
  match acc.s.creatureAt pd.1.1 pd.1.2 with
  | none => acc
  | some target_id =>
    match lookupC acc.s.creatures target_id with
    | none => acc
    | some _ =>
      let dmg := cfg.combat.damage_per_strong_attack
      let strike := fun t0 =>
        ({ t0 with metabolism := t0.metabolism.takeDamage dmg } : Creature).recordDamage dmg
      { acc with
        s := { acc.s with creatures := modifyC acc.s.creatures target_id strike },
        attacks := attacksPush acc.attacks target_id pd.2 }

/-- `SimulationState::handle_attack_action`: strike the four von Neumann
neighbors in the fixed order Up, Down, Left, Right. -/
def handleAttack (cfg : Config) (ctx : TickCtx) (x y : Nat) : TickCtx :=
  [((x, wsub1 y), Direction.Down), ((x, y + 1), Direction.Up),
   ((wsub1 x, y), Direction.Right), ((x + 1, y), Direction.Left)].foldl
    (attackStrike cfg) ctx

/-- The neighbor scan of `handle_share_energy_action`: the first adjacent
cell holding a creature other than the giver receives the transfer, then
the loop breaks. -/
def shareGo (ctx : TickCtx) (cid : Nat) (share_amount : ℚ) :
    List (Nat × Nat) → TickCtx
  | [] => ctx
  | p :: rest =>
    match ctx.s.creatureAt p.1 p.2 with
    | none => shareGo ctx cid share_amount rest
    | some receiver_id =>
      if receiver_id ≠ cid then
        match lookupC ctx.s.creatures cid with
        | none => ctx
        | some giver =>
          let r := giver.metabolism.consumeEnergy share_amount
          let debit := fun c0 =>
            { c0 with metabolism := (c0.metabolism.consumeEnergy share_amount).2 }
          let s1 := { ctx.s with creatures := modifyC ctx.s.creatures cid debit }
          if r.1 then
            { ctx with s := { s1 with
                creatures := modifyC s1.creatures receiver_id (fun c0 => c0.gainEnergy share_amount) } }
          else { ctx with s := s1 }
      else shareGo ctx cid share_amount rest

/-- `SimulationState::handle_share_energy_action`. -/
def handleShare (cfg : Config) (ctx : TickCtx) (cid x y : Nat) : TickCtx :=
  let share_amount := cfg.creature.energy_share_amount
  match lookupC ctx.s.creatures cid with
  | none => ctx
  | some giver =>
    if share_amount ≤ giver.energy then
      shareGo ctx cid share_amount
        [(x, wsub1 y), (x, y + 1), (wsub1 x, y), (x + 1, y)]
    else ctx

/-- `SimulationState::handle_rest_action`: passive healing at boosted rate
and discounted cost, then an eating attempt. -/
def handleRest (cfg : Config) (ctx : TickCtx) (cid : Nat) : TickCtx :=
  let boosted_regen := cfg.combat.health_regen_rate * cfg.creature.rest_healing_multiplier
  let energy_cost := cfg.combat.health_regen_energy_cost * cfg.creature.rest_energy_multiplier
  let ctx1 : TickCtx := { ctx with s := { ctx.s with
      creatures := modifyC ctx.s.creatures cid
        (fun c0 => { c0 with metabolism := (c0.metabolism.passiveHeal boosted_regen energy_cost).2 }) } }
  tryEat cfg ctx1 cid

/-- The shared body of `handle_reproduce_action` (with
`incOff := true`, which additionally calls `increment_offspring`) and of
the step-3h reproduction attempt (`incOff := false`): gate on alive,
`can_reproduce` and `can_spawn_new_creature`, pick an empty neighbor, and
on success push the offspring, bump `next_creature_id` and `total_births`. -/
def reproAttempt (cfg : Config) (ctx : TickCtx) (cid : Nat) (pick : Nat)
    (mutf : Nat → Option Nat) (incOff : Bool) : TickCtx :=
  match lookupC ctx.s.creatures cid with
  | none => ctx
  | some c =>
    if c.isAlive && c.canReproduce cfg.creature.min_reproduce_energy ctx.s.tick
        cfg.creature.reproduce_cooldown_ticks && ctx.s.canSpawn cfg.creature.max_population then
      match findEmptyNeighbor ctx.s.world c.x c.y pick with
      | none => ctx
      | some tp =>
        match c.reproduce ctx.s.next_creature_id tp.1 tp.2 mutf
            cfg.creature.energy_cost_reproduce cfg.creature.initial_energy
            cfg.creature.max_energy ctx.s.tick with
        | (some offspring, parent) =>
          let parent := if incOff then parent.incrementOffspring else parent
          { ctx with
            s := { ctx.s with
              creatures := modifyC ctx.s.creatures cid (fun _ => parent),
              next_creature_id := ctx.s.next_creature_id + 1,
              total_births := ctx.s.total_births + 1 },
            pending := ctx.pending ++ [offspring] }
        | (none, _) => ctx
    else ctx

/-- The action dispatch of the main loop (step 3g). -/
def dispatchAction (cfg : Config) (orc : TickOracle) (ctx : TickCtx)
    (cid x y : Nat) (a : NNAction) : TickCtx :=
  match a with
  | .Stay => tryEat cfg ctx cid
  | .MoveUp => handleMove cfg ctx cid x y .MoveUp cfg.creature.energy_cost_move
  | .MoveDown => handleMove cfg ctx cid x y .MoveDown cfg.creature.energy_cost_move
  | .MoveLeft => handleMove cfg ctx cid x y .MoveLeft cfg.creature.energy_cost_move
  | .MoveRight => handleMove cfg ctx cid x y .MoveRight cfg.creature.energy_cost_move
  | .SprintUp => handleMove cfg ctx cid x y .SprintUp cfg.creature.energy_cost_sprint
  | .SprintDown => handleMove cfg ctx cid x y .SprintDown cfg.creature.energy_cost_sprint
  | .SprintLeft => handleMove cfg ctx cid x y .SprintLeft cfg.creature.energy_cost_sprint
  | .SprintRight => handleMove cfg ctx cid x y .SprintRight cfg.creature.energy_cost_sprint
  | .Attack => handleAttack cfg ctx x y
  | .Reproduce => reproAttempt cfg ctx cid (orc.pickDispatch cid) (orc.mutDispatch cid) true
  | .ShareEnergy => handleShare cfg ctx cid x y
  | .Rest => handleRest cfg ctx cid

/-- One iteration of the shuffled per-creature loop: steps 3a–3e (metabolic
update, with `continue` when the creature is missing or no longer alive),
the action dispatch of step 3g (the sampled action comes from the oracle),
and the step-3h reproduction attempt. -/
def processCreature (cfg : Config) (orc : TickOracle) (ctx : TickCtx) (cid : Nat) : TickCtx :=
  match lookupC ctx.s.creatures cid with
  | none => ctx
  | some c0 =>
    let c1 := stepAtoE cfg.creature.max_age_ticks cfg.creature.energy_cost_per_tick
        cfg.combat.health_regen_rate cfg.combat.health_regen_energy_cost c0
    let ctx1 : TickCtx := { ctx with s := { ctx.s with
        creatures := modifyC ctx.s.creatures cid
          (stepAtoE cfg.creature.max_age_ticks cfg.creature.energy_cost_per_tick
            cfg.combat.health_regen_rate cfg.combat.health_regen_energy_cost) } }
    if c1.isAlive then
      let ctx2 := dispatchAction cfg orc ctx1 cid c1.x c1.y (orc.act cid)
      reproAttempt cfg ctx2 cid (orc.pickStepH cid) (orc.mutStepH cid) false
    else ctx1

/-- Step 4: commit the pending births, inserting each offspring into the
spatial index and the creature map. -/
def commitBirths (s : SimulationState) (pending : List Creature) : SimulationState :=
  pending.foldl (fun s c =>
    let s := { s with creature_positions := s.creature_positions.set c.x c.y c.id }
    { s with creatures := insertC s.creatures c.id c }) s

/-- `recently_dead.push_back` with the 100-entry cap. -/
def pushDead (q : List Creature) (c : Creature) : List Creature :=
  let q := q ++ [c]
  if 100 < q.length then q.drop 1 else q

/-- One step of the death sweep: spawn the meat (when
`ceil(remaining_energy / 20)` is positive) and clear the corpse's
spatial-index cell. -/
def deathMaterialize (cfg : Config) (acc : SimulationState) (p : Nat × Creature) :
    SimulationState :=
  let meat_amount := Int.toNat (Rat.ceil (p.2.energy / 20))
  let spawnMeat := fun c => CellType.addFood c meat_amount cfg.world.max_food_per_cell true
  let acc := if 0 < meat_amount then
      { acc with world := acc.world.modifyCell p.2.x p.2.y spawnMeat }
    else acc
  acc.removeCreatureFromPosition p.2.x p.2.y

/-- Step 5: materialize deaths.  For each non-alive creature (in map
order): spawn meat worth `ceil(remaining_energy / 20)` at its cell when
positive, clear its spatial-index cell; then push every corpse into the
bounded FIFO; finally count the dead into `total_deaths` and retain only
the living. -/
def deathsPhase (cfg : Config) (s : SimulationState) : SimulationState :=
  let dead := s.creatures.filter (fun p => !p.2.isAlive)
  let s1 := dead.foldl (deathMaterialize cfg) s
  let fifo := dead.foldl (fun q (p : Nat × Creature) => pushDead q p.2) s1.recently_dead
  let s2 := { s1 with recently_dead := fifo }
  { s2 with
    total_deaths := s2.total_deaths + dead.length,
    creatures := s2.creatures.filter (fun p => p.2.isAlive) }

/-- The position-retry loop of the extinction failsafe: draw a position,
then up to ten times redraw while the current draw is occupied; the
eleventh draw, if reached, is accepted unchecked. -/
def resurrectPos (s : SimulationState) (draw : Nat → Nat × Nat) : Nat × Nat :=
  let ds := (List.range 11).map (fun k =>
    ((draw k).1 % s.world.width, (draw k).2 % s.world.height))
  match (ds.take 10).find? (fun p => (s.creatureAt p.1 p.2).isNone) with
  | some p => p
  | none => ds.getD 10 (0, 0)

/-- Step 6: the extinction failsafe.  When the population is empty and the
FIFO is not, resurrect `min(initial_population, FIFO length)` creatures,
most recent corpses first, each with a fresh id, a (retry-)drawn position,
the corpse's genome, initial energy and full health. -/
def failsafePhase (cfg : Config) (orc : TickOracle) (s : SimulationState) : SimulationState :=
  if s.creatures.isEmpty && !s.recently_dead.isEmpty then
    (List.range (min cfg.creature.initial_population s.recently_dead.length)).foldl
      (fun s i =>
        match s.recently_dead.get? (s.recently_dead.length - 1 - i) with
        | none => s
        | some dead_creature =>
          let new_id := s.next_creature_id
          let s := { s with next_creature_id := new_id + 1 }
          let pos := resurrectPos s (orc.resDraw i)
          let resurrected := Creature.new new_id pos.1 pos.2 dead_creature.genome
              cfg.creature.initial_energy cfg.creature.max_energy
          { s with
            creature_positions := s.creature_positions.set pos.1 pos.2 new_id,
            creatures := insertC s.creatures new_id resurrected }) s
  else s

/-- Phases 1–3 of `SimulationState::tick`: food regeneration, aging and
decay, then the shuffled per-creature loop, returning the loop context
(state, pending births, attack map). -/
def tickCtx (cfg : Config) (orc : TickOracle) (s : SimulationState) : TickCtx :=
  let w1 := (s.world.regenerateFood cfg.world.food_regen_rate cfg.world.max_food_per_cell
      orc.regenDraw).ageAndDecayFood cfg.world.plant_decay_ticks cfg.world.meat_decay_ticks
  orc.order.foldl (processCreature cfg orc)
    { s := { s with world := w1 }, pending := [], attacks := [] }

/-- The state after phases 1–5 (through death materialization), before the
extinction failsafe. -/
def tickAfterDeaths (cfg : Config) (orc : TickOracle) (s : SimulationState) : SimulationState :=
  deathsPhase cfg (commitBirths (tickCtx cfg orc s).s (tickCtx cfg orc s).pending)

/-- One full `SimulationState::tick`: phases 1–6, then the attack-map
rotation and the tick-counter increment.  (The method is named `tickStep`
because the structure already has a `tick` field.) -/
def tickStep (cfg : Config) (orc : TickOracle) (s : SimulationState) : SimulationState :=
  let s5 := failsafePhase cfg orc (tickAfterDeaths cfg orc s)
  { s5 with attacks_last_tick := (tickCtx cfg orc s).attacks, tick := s5.tick + 1 }

/-! ## Neural network (`src/creature/neural_net.rs`)

The `f64` transcendentals are abstracted: `th` stands for `f64::tanh` and
`e` for `f64::exp`; theorems assume only the properties of the real
functions they stand for (positivity of `exp`).  The per-controller
generator is replaced by the drawn value `u` itself, and the scratch
buffers by the returned lists. -/

structure NeuralNetwork where
  input_size : Nat
  hidden_size : Nat
  output_size : Nat
  weights_ih : List ℚ
  weights_ho : List ℚ
deriving DecidableEq, Repr

namespace NeuralNetwork

/-- `NeuralNetwork::forward`: `hidden = tanh(W_ih · inputs)` then
`output = tanh(W_ho · hidden)`, with row-major weight indexing. -/
def forward (th : ℚ → ℚ) (net : NeuralNetwork) (inputs : List ℚ) : List ℚ :=
  let hidden := (List.range net.hidden_size).map (fun h =>
    th (((List.range net.input_size).map (fun i =>
      net.weights_ih.getD (h * net.input_size + i) 0 * inputs.getD i 0)).sum))
  (List.range net.output_size).map (fun o =>
    th (((List.range net.hidden_size).map (fun hh =>
      net.weights_ho.getD (o * net.hidden_size + hh) 0 * hidden.getD hh 0)).sum))

end NeuralNetwork

/-- The fold `output.iter().fold(f64::NEG_INFINITY, f64::max)`.  On the
empty list the source value is `-∞`, which no later code observes (the
softmax of an empty output is the empty list either way); `0` stands in for
it. -/
def listMax : List ℚ → ℚ
  | [] => 0
  | x :: xs => xs.foldl max x

/-- `NeuralNetwork::compute_probabilities`: numerically stable softmax —
subtract the maximum, exponentiate (`e` abstracts `f64::exp`), normalize;
when the sum of shifted exponentials is not positive, fall back to the
uniform distribution `1 / len.max(1)`. -/
def computeProbabilities (e : ℚ → ℚ) (out : List ℚ) : List ℚ :=
  let m := listMax out
  let exps := out.map (fun v => e (v - m))
  let sum := exps.sum
  if 0 < sum then exps.map (fun x => x / sum)
  else out.map (fun _ => (1 : ℚ) / ((out.length.max 1 : Nat) : ℚ))

/-- The selection loop of `decide_action`: accumulate the probabilities in
order and return the index at which the cumulative sum first exceeds the
drawn value, or `none` when it never does. -/
def sampleGo : List ℚ → ℚ → ℚ → Option Nat
  | [], _, _ => none
  | p :: rest, u, cumulative =>
      if u < cumulative + p then some 0
      else (sampleGo rest u (cumulative + p)).map (· + 1)

/-- `NeuralNetwork::decide_action`: forward pass, softmax, then sample the
action index with the drawn value `u` (the source draws `u` from the
controller's generator; the embedding takes it as an argument), falling
back to `Stay`. -/
def NeuralNetwork.decideAction (th e : ℚ → ℚ) (net : NeuralNetwork)
    (inputs : List ℚ) (u : ℚ) : NNAction :=
  match sampleGo (computeProbabilities e (net.forward th inputs)) u 0 with
  | some i => NNAction.fromIndex i
  | none => NNAction.Stay

/-- Specification-side selection: the smallest index whose cumulative
probability (the sum of the first `i + 1` entries) exceeds `u`. -/
def specFirstIndex (probs : List ℚ) (u : ℚ) : Option Nat :=
  (List.range probs.length).find? (fun i => decide (u < (probs.take (i + 1)).sum))

/-! ## Claim C7: metabolism invariants -/

/-- The spec invariant `0 ≤ energy ≤ max_energy ∧ 0 ≤ health ≤ max_health`. -/
def MetabInv (m : Metabolism) : Prop :=
  0 ≤ m.energy ∧ m.energy ≤ m.max_energy ∧ 0 ≤ m.health ∧ m.health ≤ m.max_health

lemma metabInv_new (ie me : ℚ) (h1 : 0 ≤ ie) (h2 : 0 < me) :
    MetabInv (Metabolism.new ie me) := by
  refine ⟨le_min h1 h2.le, min_le_right _ _, by norm_num [Metabolism.new], ?_⟩
  simp [Metabolism.new]

lemma metabInv_consumeEnergy (m : Metabolism) (a : ℚ) (hm : MetabInv m) (ha : 0 ≤ a) :
    MetabInv (m.consumeEnergy a).2 := by
  obtain ⟨h1, h2, h3, h4⟩ := hm
  unfold Metabolism.consumeEnergy
  split
  · exact ⟨sub_nonneg.mpr (by assumption), le_trans (sub_le_self _ ha) h2, h3, h4⟩
  · exact ⟨le_refl 0, le_trans h1 h2, h3, h4⟩

lemma metabInv_gainEnergy (m : Metabolism) (a : ℚ) (hm : MetabInv m) (ha : 0 ≤ a) :
    MetabInv (m.gainEnergy a) := by
  obtain ⟨h1, h2, h3, h4⟩ := hm
  exact ⟨le_min (add_nonneg h1 ha) (le_trans h1 h2), min_le_right _ _, h3, h4⟩

lemma metabInv_takeDamage (m : Metabolism) (a : ℚ) (hm : MetabInv m) (ha : 0 ≤ a) :
    MetabInv (m.takeDamage a) := by
  obtain ⟨h1, h2, h3, h4⟩ := hm
  exact ⟨h1, h2, le_max_right _ _, max_le (le_trans (sub_le_self _ ha) h4) (le_trans h3 h4)⟩

lemma metabInv_heal (m : Metabolism) (a : ℚ) (hm : MetabInv m) (ha : 0 ≤ a) :
    MetabInv (m.heal a) := by
  obtain ⟨h1, h2, h3, h4⟩ := hm
  exact ⟨h1, h2, le_min (add_nonneg h3 ha) (le_trans h3 h4), min_le_right _ _⟩

lemma metabInv_passiveHeal (m : Metabolism) (amt cost : ℚ) (hm : MetabInv m)
    (hamt : 0 ≤ amt) (hcost : 0 ≤ cost) : MetabInv (m.passiveHeal amt cost).2 := by
  unfold Metabolism.passiveHeal
  split
  · exact metabInv_consumeEnergy _ _ (metabInv_heal m amt hm hamt) hcost
  · exact hm

/-- Claim C7 (confirmed): a `Metabolism` built by `Metabolism::new` from a
nonnegative initial energy and a positive maximum satisfies
`0 ≤ energy ≤ max_energy` and `0 ≤ health ≤ max_health`, and every
operation — `consume_energy`, `gain_energy`, `take_damage`, `heal`,
`passive_heal` — preserves the invariant when called with nonnegative
amounts. -/
theorem metabolism_invariants_hold :
    (∀ ie me : ℚ, 0 ≤ ie → 0 < me → MetabInv (Metabolism.new ie me)) ∧
    (∀ (m : Metabolism) (a : ℚ), MetabInv m → 0 ≤ a →
      MetabInv (m.consumeEnergy a).2 ∧ MetabInv (m.gainEnergy a) ∧
      MetabInv (m.takeDamage a) ∧ MetabInv (m.heal a)) ∧
    (∀ (m : Metabolism) (amt cost : ℚ), MetabInv m → 0 ≤ amt → 0 ≤ cost →
      MetabInv (m.passiveHeal amt cost).2) := by
  refine ⟨metabInv_new, fun m a hm ha => ⟨?_, ?_, ?_, ?_⟩, metabInv_passiveHeal⟩
  · exact metabInv_consumeEnergy m a hm ha
  · exact metabInv_gainEnergy m a hm ha
  · exact metabInv_takeDamage m a hm ha
  · exact metabInv_heal m a hm ha

/-- Witness for C7: the invariant chain evaluated at the concrete
metabolism `new 50 100` with amount `7`. -/
theorem metabolism_invariants_hold_witness :
    (0 : ℚ) ≤ 50 ∧ (0 : ℚ) < 100 ∧ MetabInv (Metabolism.new 50 100) ∧
    MetabInv ((Metabolism.new 50 100).consumeEnergy 7).2 := by
  have h1 : (0 : ℚ) ≤ 50 := by norm_num
  have h2 : (0 : ℚ) < 100 := by norm_num
  have hinv := metabolism_invariants_hold.1 50 100 h1 h2
  exact ⟨h1, h2, hinv, (metabolism_invariants_hold.2.1 _ 7 hinv (by norm_num)).1⟩

/-! ## Claim C9: the softmax is a probability distribution -/

lemma sum_map_div (l : List ℚ) (s : ℚ) :
    (l.map (fun x => x / s)).sum = l.sum / s := by
  induction l with
  | nil => simp
  | cons a rest ih => simp [ih, add_div]

lemma sum_map_uniform (l : List ℚ) (c : ℚ) :
    (l.map (fun _ => c)).sum = l.length * c := by
  induction l with
  | nil => simp
  | cons a rest ih => simp [ih, add_mul]; ring

/-- Claim C9 (confirmed): for a nonempty output vector,
`compute_probabilities` yields a probability distribution — every entry is
nonnegative and the entries sum to exactly 1 — whenever the exponential is
nonnegative (true of the exact `exp` it stands for); and whenever the sum
of shifted exponentials fails to be positive (the underflow branch) the
result is exactly the uniform distribution with every entry `1 / O`. -/
theorem softmax_is_distribution (e : ℚ → ℚ) (out : List ℚ) (hne : out ≠ []) :
    ((∀ x : ℚ, 0 ≤ e x) →
      (∀ p ∈ computeProbabilities e out, 0 ≤ p) ∧
      (computeProbabilities e out).sum = 1) ∧
    (¬ 0 < (out.map (fun v => e (v - listMax out))).sum →
      computeProbabilities e out = out.map (fun _ => (1 : ℚ) / (out.length : ℚ))) := by
  have hlen : 0 < out.length := List.length_pos.mpr hne
  have hmax : out.length.max 1 = out.length := Nat.max_eq_left hlen
  constructor
  · intro he
    unfold computeProbabilities
    by_cases hpos : 0 < (out.map (fun v => e (v - listMax out))).sum
    · rw [if_pos hpos]
      constructor
      · intro p hp
        simp only [List.mem_map] at hp
        obtain ⟨x, hx, rfl⟩ := hp
        obtain ⟨v, _, rfl⟩ := hx
        exact div_nonneg (he _) hpos.le
      · rw [sum_map_div, div_self (ne_of_gt hpos)]
    · rw [if_neg hpos]
      constructor
      · intro p hp
        simp only [List.mem_map] at hp
        obtain ⟨x, _, rfl⟩ := hp
        positivity
      · rw [sum_map_uniform, hmax]
        have hne0 : (out.length : ℚ) ≠ 0 := by exact_mod_cast hlen.ne'
        rw [mul_one_div, div_self hne0]
  · intro hzero
    unfold computeProbabilities
    rw [if_neg hzero, hmax]

/-- Witness for C9: the distribution facts evaluated on the concrete
output `[0, 0]` with the exponential instantiated to the constant 1. -/
theorem softmax_is_distribution_witness :
    ([(0 : ℚ), 0] ≠ ([] : List ℚ)) ∧
    ((∀ p ∈ computeProbabilities (fun _ => 1) [(0 : ℚ), 0], 0 ≤ p) ∧
      (computeProbabilities (fun _ => 1) [(0 : ℚ), 0]).sum = 1) :=
  ⟨by decide,
    (softmax_is_distribution (fun _ => 1) [0, 0] (by decide)).1 (fun _ => zero_le_one)⟩

/-! ## Claim C8: `decide_action` selects the first index whose cumulative
probability exceeds the drawn value -/

lemma find?_ext {α : Type} (p q : α → Bool) (l : List α)
    (h : ∀ x ∈ l, p x = q x) : l.find? p = l.find? q := by
  induction l with
  | nil => rfl
  | cons a rest ih =>
    have ha := h a (List.mem_cons_self a rest)
    by_cases hpa : p a = true
    · rw [List.find?_cons_of_pos _ hpa, List.find?_cons_of_pos _ (ha ▸ hpa)]
    · rw [List.find?_cons_of_neg _ hpa, List.find?_cons_of_neg _ (ha ▸ hpa)]
      exact ih (fun x hx => h x (List.mem_cons_of_mem a hx))

lemma sampleGo_eq_find (u : ℚ) (probs : List ℚ) : ∀ cumulative : ℚ,
    sampleGo probs u cumulative =
      (List.range probs.length).find?
        (fun i => decide (u < cumulative + (probs.take (i + 1)).sum)) := by
  induction probs with
  | nil => intro c; rfl
  | cons p rest ih =>
    intro c
    rw [show (p :: rest).length = rest.length + 1 from rfl, List.range_succ_eq_map]
    by_cases h0 : u < c + p
    · rw [List.find?_cons_of_pos _ (by simpa using h0)]
      simp [sampleGo, if_pos h0]
    · rw [List.find?_cons_of_neg _ (by simpa using h0), List.find?_map]
      simp only [sampleGo, if_neg h0]
      rw [ih (c + p)]
      have hfun : (fun x : Nat => x + 1) = Nat.succ := funext fun _ => rfl
      rw [hfun]
      congr 1
      apply find?_ext
      intro i _
      simp only [Function.comp_apply, List.take_succ_cons, List.sum_cons, add_assoc]

/-- Claim C8 (confirmed): for an input vector of the configured length and
a drawn value `u ∈ [0, 1)`, `decide_action` returns the action obtained by
applying the fixed index mapping `Action::from_index` (0 = MoveUp,
1 = MoveDown, 2 = MoveLeft, 3 = MoveRight, 4 = Attack, 5 = Reproduce,
6 = ShareEnergy, 7–10 = SprintUp/Down/Left/Right, 11 = Rest, anything else
Stay) to the smallest index whose cumulative probability exceeds `u`, and
returns `Stay` when no index does. -/
theorem decide_action_first_exceeding_index (th e : ℚ → ℚ) (net : NeuralNetwork)
    (inputs : List ℚ) (u : ℚ) (hlen : inputs.length = net.input_size)
    (hu0 : 0 ≤ u) (hu1 : u < 1) :
    (net.decideAction th e inputs u =
      match specFirstIndex (computeProbabilities e (net.forward th inputs)) u with
      | some i => NNAction.fromIndex i
      | none => NNAction.Stay) ∧
    NNAction.fromIndex 0 = NNAction.MoveUp ∧
    NNAction.fromIndex 1 = NNAction.MoveDown ∧
    NNAction.fromIndex 2 = NNAction.MoveLeft ∧
    NNAction.fromIndex 3 = NNAction.MoveRight ∧
    NNAction.fromIndex 4 = NNAction.Attack ∧
    NNAction.fromIndex 5 = NNAction.Reproduce ∧
    NNAction.fromIndex 6 = NNAction.ShareEnergy ∧
    NNAction.fromIndex 7 = NNAction.SprintUp ∧
    NNAction.fromIndex 8 = NNAction.SprintDown ∧
    NNAction.fromIndex 9 = NNAction.SprintLeft ∧
    NNAction.fromIndex 10 = NNAction.SprintRight ∧
    NNAction.fromIndex 11 = NNAction.Rest ∧
    (∀ n, 12 ≤ n → NNAction.fromIndex n = NNAction.Stay) := by
  refine ⟨?_, rfl, rfl, rfl, rfl, rfl, rfl, rfl, rfl, rfl, rfl, rfl, rfl, ?_⟩
  · unfold NeuralNetwork.decideAction specFirstIndex
    rw [sampleGo_eq_find]
    rw [find?_ext _ (fun i => decide (u <
        ((computeProbabilities e (net.forward th inputs)).take (i + 1)).sum)) _
      (fun i _ => by rw [zero_add])]
  · intro n hn
    obtain ⟨m, rfl⟩ : ∃ m, n = m + 12 := ⟨n - 12, by omega⟩
    rfl

/-- Witness for C8: the selection law applied to a concrete one-input,
two-output network with `tanh` instantiated to the identity and `exp` to
the constant 1, at the drawn value `0`. -/
theorem decide_action_first_exceeding_index_witness :
    ([(1 : ℚ)].length = (⟨1, 1, 2, [1], [1, 1]⟩ : NeuralNetwork).input_size) ∧
    (0 : ℚ) ≤ 0 ∧ (0 : ℚ) < 1 ∧
    ((⟨1, 1, 2, [1], [1, 1]⟩ : NeuralNetwork).decideAction (fun q => q) (fun _ => 1)
        [(1 : ℚ)] 0 =
      match specFirstIndex (computeProbabilities (fun _ => 1)
          ((⟨1, 1, 2, [1], [1, 1]⟩ : NeuralNetwork).forward (fun q => q) [(1 : ℚ)])) 0 with
      | some i => NNAction.fromIndex i
      | none => NNAction.Stay) :=
  ⟨by decide, by decide, by decide,
    (decide_action_first_exceeding_index (fun q => q) (fun _ => 1) _ [(1 : ℚ)] 0
      (by decide) (by decide) (by decide)).1⟩

/-! ## Lemmas about the creature map and the attack map -/

lemma lookupC_modifyC_self (m : List (Nat × Creature)) (cid : Nat) (f : Creature → Creature) :
    lookupC (modifyC m cid f) cid = (lookupC m cid).map f := by
  induction m with
  | nil => rfl
  | cons p rest ih =>
    by_cases h : p.1 = cid
    · simp [modifyC, lookupC, h]
    · simp [modifyC, lookupC, h, ih]

lemma lookupC_modifyC_ne (m : List (Nat × Creature)) (cid j : Nat) (f : Creature → Creature)
    (h : j ≠ cid) : lookupC (modifyC m cid f) j = lookupC m j := by
  induction m with
  | nil => rfl
  | cons p rest ih =>
    by_cases h1 : p.1 = cid
    · have h3 : (cid = j) = False := eq_false (fun hh => h hh.symm)
      simp [modifyC, lookupC, h1, h3, ih]
    · simp only [modifyC, if_neg h1, lookupC]
      by_cases h2 : p.1 = j
      · simp [h2]
      · simp [h2, ih]

lemma keysOf_modifyC (m : List (Nat × Creature)) (cid : Nat) (f : Creature → Creature) :
    keysOf (modifyC m cid f) = keysOf m := by
  induction m with
  | nil => rfl
  | cons p rest ih =>
    by_cases h : p.1 = cid
    · simp [modifyC, keysOf, h] at ih ⊢; exact ih
    · simp [modifyC, keysOf, h] at ih ⊢; exact ih

lemma length_modifyC (m : List (Nat × Creature)) (cid : Nat) (f : Creature → Creature) :
    (modifyC m cid f).length = m.length := by
  induction m with
  | nil => rfl
  | cons p rest ih =>
    by_cases h : p.1 = cid <;> simp [modifyC, h, ih]

lemma attacksGet_attacksPush_self (a : List (Nat × List Direction)) (v : Nat) (d : Direction) :
    attacksGet (attacksPush a v d) v = attacksGet a v ++ [d] := by
  induction a with
  | nil => simp [attacksPush, attacksGet]
  | cons p rest ih =>
    by_cases h : p.1 = v
    · simp [attacksPush, attacksGet, h]
    · simp [attacksPush, attacksGet, h, ih]

/-! ## Claim C6: moving into an occupied cell is an attack -/

lemma consumeEnergy_of_le (m : Metabolism) (cost : ℚ) (h : cost ≤ m.energy) :
    m.consumeEnergy cost = (true, { m with energy := m.energy - cost }) := by
  simp [Metabolism.consumeEnergy, h]

lemma consumeEnergy_of_not_le (m : Metabolism) (cost : ℚ) (h : ¬ cost ≤ m.energy) :
    m.consumeEnergy cost = (false, { m with energy := 0 }) := by
  simp [Metabolism.consumeEnergy, h]

lemma handleMove_occupied_hit (cfg : Config) (ctx : TickCtx) (cid x y : Nat)
    (a : NNAction) (cost : ℚ) (tid : Nat) (c t0 : Creature)
    (hl : lookupC ctx.s.creatures cid = some c)
    (ht : ctx.s.creatureAt (moveTarget ctx.s.world x y a).1 (moveTarget ctx.s.world x y a).2
      = some tid)
    (hne : tid ≠ cid)
    (hlt : lookupC ctx.s.creatures tid = some t0)
    (hcost : cost ≤ c.metabolism.energy) :
    handleMove cfg ctx cid x y a cost =
      { ctx with
        s := { ctx.s with creatures := modifyC (modifyC ctx.s.creatures cid (fun c0 => { c0 with metabolism := (c0.metabolism.consumeEnergy cost).2 })) tid (fun t1 => ({ t1 with metabolism := t1.metabolism.takeDamage cfg.combat.damage_per_attack } : Creature).recordDamage cfg.combat.damage_per_attack) },
        attacks := attacksPush ctx.attacks tid (oppositeDir a) } := by
  have hr := consumeEnergy_of_le c.metabolism cost hcost
  simp only [handleMove, hl, ht, hr, lookupC_modifyC_ne _ _ _ _ hne, hlt, ite_true, ite_false]

lemma handleMove_no_energy (cfg : Config) (ctx : TickCtx) (cid x y : Nat)
    (a : NNAction) (cost : ℚ) (c : Creature)
    (hl : lookupC ctx.s.creatures cid = some c)
    (hcost : ¬ cost ≤ c.metabolism.energy) :
    handleMove cfg ctx cid x y a cost =
      { ctx with s := { ctx.s with creatures := modifyC ctx.s.creatures cid (fun c0 => { c0 with metabolism := (c0.metabolism.consumeEnergy cost).2 }) } } := by
  have hr := consumeEnergy_of_not_le c.metabolism cost hcost
  simp only [handleMove, hl, hr, Bool.false_eq_true, ite_true, ite_false]

/-- Claim C6 (confirmed): when a Move or Sprint action's clamped target
cell is occupied by another creature, then — if debiting the energy cost
succeeds — the mover keeps its position (and the spatial index is
untouched), the occupant takes `damage_per_attack` (recorded as its last
damage), and the direction opposite to the motion is appended to the
occupant's attack-map entry for the next tick; if the debit fails, the
occupant is untouched, the attack map is unchanged, and the only effect is
that the mover's energy is set to 0. -/
theorem move_into_occupied_attacks (cfg : Config) (ctx : TickCtx) (cid x y : Nat)
    (a : NNAction) (cost : ℚ) (tid : Nat) (c t0 : Creature)
    (hmv : a.isMovement = true)
    (hl : lookupC ctx.s.creatures cid = some c)
    (ht : ctx.s.creatureAt (moveTarget ctx.s.world x y a).1 (moveTarget ctx.s.world x y a).2
      = some tid)
    (hne : tid ≠ cid)
    (hlt : lookupC ctx.s.creatures tid = some t0) :
    (cost ≤ c.metabolism.energy →
      lookupC (handleMove cfg ctx cid x y a cost).s.creatures cid
        = some { c with metabolism := { c.metabolism with energy := c.metabolism.energy - cost } } ∧
      lookupC (handleMove cfg ctx cid x y a cost).s.creatures tid
        = some { t0 with metabolism := t0.metabolism.takeDamage cfg.combat.damage_per_attack, last_damage_taken := cfg.combat.damage_per_attack } ∧
      attacksGet (handleMove cfg ctx cid x y a cost).attacks tid
        = attacksGet ctx.attacks tid ++ [oppositeDir a] ∧
      (handleMove cfg ctx cid x y a cost).s.creature_positions = ctx.s.creature_positions ∧
      (handleMove cfg ctx cid x y a cost).s.world = ctx.s.world) ∧
    (¬ cost ≤ c.metabolism.energy →
      lookupC (handleMove cfg ctx cid x y a cost).s.creatures cid
        = some { c with metabolism := { c.metabolism with energy := 0 } } ∧
      lookupC (handleMove cfg ctx cid x y a cost).s.creatures tid = some t0 ∧
      (handleMove cfg ctx cid x y a cost).attacks = ctx.attacks ∧
      (handleMove cfg ctx cid x y a cost).s.creature_positions = ctx.s.creature_positions ∧
      (handleMove cfg ctx cid x y a cost).s.world = ctx.s.world ∧
      (handleMove cfg ctx cid x y a cost).pending = ctx.pending) := by
  constructor
  · intro hcost
    rw [handleMove_occupied_hit cfg ctx cid x y a cost tid c t0 hl ht hne hlt hcost]
    refine ⟨?_, ?_, ?_, rfl, rfl⟩
    · rw [show (({ ctx with s := { ctx.s with creatures := modifyC (modifyC ctx.s.creatures cid (fun c0 => { c0 with metabolism := (c0.metabolism.consumeEnergy cost).2 })) tid (fun t1 => ({ t1 with metabolism := t1.metabolism.takeDamage cfg.combat.damage_per_attack } : Creature).recordDamage cfg.combat.damage_per_attack) }, attacks := attacksPush ctx.attacks tid (oppositeDir a) } : TickCtx)).s.creatures = modifyC (modifyC ctx.s.creatures cid (fun c0 => { c0 with metabolism := (c0.metabolism.consumeEnergy cost).2 })) tid (fun t1 => ({ t1 with metabolism := t1.metabolism.takeDamage cfg.combat.damage_per_attack } : Creature).recordDamage cfg.combat.damage_per_attack) from rfl]
      rw [lookupC_modifyC_ne _ _ _ _ (Ne.symm hne), lookupC_modifyC_self, hl]
      simp [consumeEnergy_of_le c.metabolism cost hcost]
    · rw [show (({ ctx with s := { ctx.s with creatures := modifyC (modifyC ctx.s.creatures cid (fun c0 => { c0 with metabolism := (c0.metabolism.consumeEnergy cost).2 })) tid (fun t1 => ({ t1 with metabolism := t1.metabolism.takeDamage cfg.combat.damage_per_attack } : Creature).recordDamage cfg.combat.damage_per_attack) }, attacks := attacksPush ctx.attacks tid (oppositeDir a) } : TickCtx)).s.creatures = modifyC (modifyC ctx.s.creatures cid (fun c0 => { c0 with metabolism := (c0.metabolism.consumeEnergy cost).2 })) tid (fun t1 => ({ t1 with metabolism := t1.metabolism.takeDamage cfg.combat.damage_per_attack } : Creature).recordDamage cfg.combat.damage_per_attack) from rfl]
      rw [lookupC_modifyC_self, lookupC_modifyC_ne _ _ _ _ hne, hlt]
      simp [Creature.recordDamage]
    · exact attacksGet_attacksPush_self ctx.attacks tid (oppositeDir a)
  · intro hcost
    rw [handleMove_no_energy cfg ctx cid x y a cost c hl hcost]
    refine ⟨?_, ?_, rfl, rfl, rfl, rfl⟩
    · rw [show (({ ctx with s := { ctx.s with creatures := modifyC ctx.s.creatures cid (fun c0 => { c0 with metabolism := (c0.metabolism.consumeEnergy cost).2 }) } } : TickCtx)).s.creatures = modifyC ctx.s.creatures cid (fun c0 => { c0 with metabolism := (c0.metabolism.consumeEnergy cost).2 }) from rfl]
      rw [lookupC_modifyC_self, hl]
      simp [consumeEnergy_of_not_le c.metabolism cost hcost]
    · rw [show (({ ctx with s := { ctx.s with creatures := modifyC ctx.s.creatures cid (fun c0 => { c0 with metabolism := (c0.metabolism.consumeEnergy cost).2 }) } } : TickCtx)).s.creatures = modifyC ctx.s.creatures cid (fun c0 => { c0 with metabolism := (c0.metabolism.consumeEnergy cost).2 }) from rfl]
      rw [lookupC_modifyC_ne _ _ _ _ hne, hlt]

/-! ## Concrete scenarios

Small explicit states used by the counterexamples and witnesses.  `genome0`
is the empty genome (gene content is irrelevant to every claim); the
metabolism records are written literally. -/

def genome0 : Genome := ⟨[], 0⟩

/-- A test configuration: 2×1 world without food dynamics; reproduction
costs 10 with threshold 50 and no cooldown; no per-tick energy cost. -/
def cfgRepro : Config :=
  { world := { width := 2, height := 1, initial_food_density := 0, food_regen_rate := 0
               max_food_per_cell := 10, plant_decay_ticks := 600, meat_decay_ticks := 300 }
    creature := { initial_population := 1, max_population := 10, initial_energy := 50
                  max_energy := 200, energy_per_food := 20, energy_cost_per_tick := 0
                  energy_cost_move := 1, energy_cost_reproduce := 10, min_reproduce_energy := 50
                  reproduce_cooldown_ticks := 0, max_age_ticks := 100, energy_cost_sprint := 2
                  energy_share_amount := 20, rest_energy_multiplier := 1
                  rest_healing_multiplier := 2 }
    combat := { damage_per_attack := 20, damage_per_strong_attack := 40
                health_regen_rate := 2, health_regen_energy_cost := 2 } }

def oracleStay : TickOracle :=
  { order := [0, 1], act := fun _ => .Stay, pickDispatch := fun _ => 0, pickStepH := fun _ => 0
    mutDispatch := fun _ _ => none, mutStepH := fun _ _ => none
    regenDraw := fun _ => (0, 0), resDraw := fun _ _ => (0, 0) }

def creature100 : Creature :=
  { id := 0, x := 0, y := 0, genome := genome0
    metabolism := { energy := 100, max_energy := 200, health := 100, max_health := 100 }
    last_reproduce_tick := 0, age := 0, offspring_count := 0, last_damage_taken := 0 }

def stateSolo : SimulationState :=
  { world := ⟨2, 1, [.Empty, .Empty]⟩, creatures := [(0, creature100)]
    creature_positions := ⟨2, 1, [some 0, none]⟩, attacks_last_tick := [], recently_dead := []
    tick := 0, next_creature_id := 1, total_births := 0, total_deaths := 0 }

/-- Counterexample for C3: dispatching the `Reproduce` action is not a
no-op.  On a lone creature with energy 100 (threshold 50, cost 10, no
cooldown, free neighbor cell) the dispatch itself reproduces:
`total_births` rises from 0 to 1 and the parent's energy drops to 90. -/
theorem reproduce_dispatch_not_noop_cex :
    stateSolo.total_births = 0 ∧
    (dispatchAction cfgRepro oracleStay ⟨stateSolo, [], []⟩ 0 0 0 .Reproduce).s.total_births = 1 ∧
    (lookupC (dispatchAction cfgRepro oracleStay ⟨stateSolo, [], []⟩ 0 0 0 .Reproduce).s.creatures
        0).map (fun c => c.metabolism.energy) = some 90 ∧
    (dispatchAction cfgRepro oracleStay ⟨stateSolo, [], []⟩ 0 0 0 .Reproduce).pending.length = 1 := by
  refine ⟨rfl, ?_, ?_, ?_⟩ <;>
    norm_num [dispatchAction, reproAttempt, lookupC, stateSolo, creature100, cfgRepro,
      Creature.isAlive, Metabolism.isAlive, Creature.canReproduce, Metabolism.canAfford,
      SimulationState.canSpawn, findEmptyNeighbor, World.emptyNeighbors, World.neighbors,
      World.neighborDeltas, World.get, CellType.isEmptyCell, Creature.reproduce,
      Creature.incrementOffspring, Metabolism.consumeEnergy, Creature.new, Genome.fromParent,
      genome0, Metabolism.new, modifyC, oracleStay, List.filterMap_cons, List.filter_cons,
      List.foldl_cons, List.foldl_nil]

def moverA : Creature :=
  { id := 0, x := 0, y := 0, genome := genome0
    metabolism := { energy := 100, max_energy := 200, health := 100, max_health := 100 }
    last_reproduce_tick := 0, age := 0, offspring_count := 0, last_damage_taken := 0 }

def occupantB : Creature :=
  { id := 1, x := 1, y := 0, genome := genome0
    metabolism := { energy := 80, max_energy := 200, health := 100, max_health := 100 }
    last_reproduce_tick := 0, age := 0, offspring_count := 0, last_damage_taken := 0 }

def ctxMove : TickCtx :=
  { s := { world := ⟨2, 1, [.Empty, .Empty]⟩, creatures := [(0, moverA), (1, occupantB)]
           creature_positions := ⟨2, 1, [some 0, some 1]⟩, attacks_last_tick := []
           recently_dead := [], tick := 0, next_creature_id := 2, total_births := 0
           total_deaths := 0 }
    pending := [], attacks := [] }

/-- Witness for C6: creature 0 at (0,0) moves right into creature 1 at
(1,0) with move cost 1; the debit succeeds, creature 1 takes the damage
and is marked as attacked from the left. -/
theorem move_into_occupied_attacks_witness :
    NNAction.MoveRight.isMovement = true ∧
    lookupC ctxMove.s.creatures 0 = some moverA ∧
    ctxMove.s.creatureAt (moveTarget ctxMove.s.world 0 0 .MoveRight).1
      (moveTarget ctxMove.s.world 0 0 .MoveRight).2 = some 1 ∧
    (1 : Nat) ≠ 0 ∧
    lookupC ctxMove.s.creatures 1 = some occupantB ∧
    ((1 : ℚ) ≤ moverA.metabolism.energy) ∧
    lookupC (handleMove cfgRepro ctxMove 0 0 0 .MoveRight 1).s.creatures 1
      = some { occupantB with metabolism := occupantB.metabolism.takeDamage cfgRepro.combat.damage_per_attack, last_damage_taken := cfgRepro.combat.damage_per_attack } ∧
    attacksGet (handleMove cfgRepro ctxMove 0 0 0 .MoveRight 1).attacks 1
      = attacksGet ctxMove.attacks 1 ++ [oppositeDir NNAction.MoveRight] := by
  have h1 : lookupC ctxMove.s.creatures 0 = some moverA := rfl
  have h2 : ctxMove.s.creatureAt (moveTarget ctxMove.s.world 0 0 .MoveRight).1
      (moveTarget ctxMove.s.world 0 0 .MoveRight).2 = some 1 := rfl
  have h3 : lookupC ctxMove.s.creatures 1 = some occupantB := rfl
  have h4 : (1 : ℚ) ≤ moverA.metabolism.energy := by norm_num [moverA]
  have main := move_into_occupied_attacks cfgRepro ctxMove 0 0 0 .MoveRight 1 1 moverA
    occupantB rfl h1 h2 (by decide) h3
  exact ⟨rfl, h1, h2, by decide, h3, h4, ((main.1 h4).2).1, ((main.1 h4).2).2.1⟩

/-! ## Bookkeeping preservation through the action handlers

`CtxSame ctx ctx'` records everything of the loop context that the action
handlers (other than the reproduction sites) leave untouched: the key set
of the creature map, both counters, the pending-birth list, the tick
counter and `next_creature_id`. -/

def CtxSame (ctx ctx' : TickCtx) : Prop :=
  keysOf ctx'.s.creatures = keysOf ctx.s.creatures ∧
  ctx'.s.total_births = ctx.s.total_births ∧
  ctx'.s.next_creature_id = ctx.s.next_creature_id ∧
  ctx'.pending = ctx.pending ∧
  ctx'.s.total_deaths = ctx.s.total_deaths ∧
  ctx'.s.tick = ctx.s.tick

lemma ctxSame_refl (ctx : TickCtx) : CtxSame ctx ctx :=
  ⟨rfl, rfl, rfl, rfl, rfl, rfl⟩

lemma ctxSame_trans {a b c : TickCtx} (h1 : CtxSame a b) (h2 : CtxSame b c) : CtxSame a c :=
  ⟨h2.1.trans h1.1, h2.2.1.trans h1.2.1, h2.2.2.1.trans h1.2.2.1, h2.2.2.2.1.trans h1.2.2.2.1,
    h2.2.2.2.2.1.trans h1.2.2.2.2.1, h2.2.2.2.2.2.trans h1.2.2.2.2.2⟩

lemma tryEat_same (cfg : Config) (ctx : TickCtx) (cid : Nat) :
    CtxSame ctx (tryEat cfg ctx cid) := by
  unfold tryEat
  split
  · exact ctxSame_refl _
  · split
    · exact ctxSame_refl _
    · split
      · exact ⟨keysOf_modifyC _ _ _, rfl, rfl, rfl, rfl, rfl⟩
      · exact ctxSame_refl _

lemma handleMove_same (cfg : Config) (ctx : TickCtx) (cid x y : Nat) (a : NNAction)
    (cost : ℚ) : CtxSame ctx (handleMove cfg ctx cid x y a cost) := by
  unfold handleMove
  split
  · exact ctxSame_refl _
  · dsimp only
    split
    · split
      · split
        · exact ⟨keysOf_modifyC _ _ _, rfl, rfl, rfl, rfl, rfl⟩
        · exact ⟨(keysOf_modifyC _ _ _).trans (keysOf_modifyC _ _ _), rfl, rfl, rfl, rfl, rfl⟩
      · split
        · exact ⟨keysOf_modifyC _ _ _, rfl, rfl, rfl, rfl, rfl⟩
        · split
          · refine ctxSame_trans ?_ (tryEat_same _ _ _)
            exact ⟨(keysOf_modifyC _ _ _).trans (keysOf_modifyC _ _ _), rfl, rfl, rfl, rfl, rfl⟩
          · exact ⟨keysOf_modifyC _ _ _, rfl, rfl, rfl, rfl, rfl⟩
    · exact ⟨keysOf_modifyC _ _ _, rfl, rfl, rfl, rfl, rfl⟩

lemma attackStrike_same (cfg : Config) (acc : TickCtx) (pd : (Nat × Nat) × Direction) :
    CtxSame acc (attackStrike cfg acc pd) := by
  unfold attackStrike
  split
  · exact ctxSame_refl _
  · split
    · exact ctxSame_refl _
    · exact ⟨keysOf_modifyC _ _ _, rfl, rfl, rfl, rfl, rfl⟩

lemma foldl_attackStrike_same (cfg : Config) (l : List ((Nat × Nat) × Direction)) :
    ∀ acc : TickCtx, CtxSame acc (l.foldl (attackStrike cfg) acc) := by
  induction l with
  | nil => intro acc; exact ctxSame_refl _
  | cons p rest ih =>
    intro acc
    exact ctxSame_trans (attackStrike_same cfg acc p) (ih _)

lemma handleAttack_same (cfg : Config) (ctx : TickCtx) (x y : Nat) :
    CtxSame ctx (handleAttack cfg ctx x y) :=
  foldl_attackStrike_same cfg _ ctx

lemma shareGo_same (ctx : TickCtx) (cid : Nat) (amt : ℚ) (l : List (Nat × Nat)) :
    CtxSame ctx (shareGo ctx cid amt l) := by
  induction l with
  | nil => exact ctxSame_refl _
  | cons p rest ih =>
    unfold shareGo
    split
    · exact ih
    · split
      · split
        · exact ctxSame_refl _
        · dsimp only
          split
          · exact ⟨(keysOf_modifyC _ _ _).trans (keysOf_modifyC _ _ _), rfl, rfl, rfl, rfl, rfl⟩
          · exact ⟨keysOf_modifyC _ _ _, rfl, rfl, rfl, rfl, rfl⟩
      · exact ih

lemma handleShare_same (cfg : Config) (ctx : TickCtx) (cid x y : Nat) :
    CtxSame ctx (handleShare cfg ctx cid x y) := by
  unfold handleShare
  split
  · exact ctxSame_refl _
  · dsimp only
    split
    · exact shareGo_same _ _ _ _
    · exact ctxSame_refl _

lemma handleRest_same (cfg : Config) (ctx : TickCtx) (cid : Nat) :
    CtxSame ctx (handleRest cfg ctx cid) := by
  unfold handleRest
  refine ctxSame_trans ?_ (tryEat_same _ _ _)
  exact ⟨keysOf_modifyC _ _ _, rfl, rfl, rfl, rfl, rfl⟩

/-- `StepAcct ctx ctx'` is the birth accounting across part of the loop:
some `k ≥ 0` births were queued; each increments `total_births` and
`next_creature_id` once, and the queued offspring carry exactly the ids
`next_creature_id, …, next_creature_id + k - 1` in order; keys of the
creature map, `total_deaths` and the tick counter are untouched. -/
def StepAcct (ctx ctx' : TickCtx) : Prop :=
  ∃ k : Nat,
    keysOf ctx'.s.creatures = keysOf ctx.s.creatures ∧
    ctx'.s.total_births = ctx.s.total_births + k ∧
    ctx'.s.next_creature_id = ctx.s.next_creature_id + k ∧
    ctx'.pending.map Creature.id
      = ctx.pending.map Creature.id ++ List.range' ctx.s.next_creature_id k ∧
    ctx'.s.total_deaths = ctx.s.total_deaths ∧
    ctx'.s.tick = ctx.s.tick

lemma ctxSame_stepAcct {a b : TickCtx} (h : CtxSame a b) : StepAcct a b := by
  obtain ⟨h1, h2, h3, h4, h5, h6⟩ := h
  exact ⟨0, h1, by simp [h2], by simp [h3], by simp [h4], h5, h6⟩

lemma stepAcct_trans {a b c : TickCtx} (h1 : StepAcct a b) (h2 : StepAcct b c) :
    StepAcct a c := by
  obtain ⟨k1, e1, e2, e3, e4, e5, e6⟩ := h1
  obtain ⟨k2, f1, f2, f3, f4, f5, f6⟩ := h2
  refine ⟨k1 + k2, f1.trans e1, by omega, by omega, ?_, f5.trans e5, f6.trans e6⟩
  rw [f4, e4, e3, List.append_assoc, List.range'_append_1, Nat.add_comm k2 k1]

lemma reproduce_eq_some (c : Creature) (oid tx ty : Nat) (mutf : Nat → Option Nat)
    (cost ie me : ℚ) (t : Nat) (off p : Creature)
    (h : c.reproduce oid tx ty mutf cost ie me t = (some off, p)) :
    off = Creature.new oid tx ty (c.genome.fromParent mutf) ie me ∧
    p = { c with metabolism := (c.metabolism.consumeEnergy cost).2
                 last_reproduce_tick := t } := by
  unfold Creature.reproduce at h
  split at h
  · injection h with h1 h2
    injection h1 with h1
    exact ⟨h1.symm, h2.symm⟩
  · injection h with h1 h2
    exact absurd h1 (by simp)

lemma reproAttempt_acct (cfg : Config) (ctx : TickCtx) (cid pick : Nat)
    (mutf : Nat → Option Nat) (incOff : Bool) :
    StepAcct ctx (reproAttempt cfg ctx cid pick mutf incOff) := by
  unfold reproAttempt
  split
  · exact ctxSame_stepAcct (ctxSame_refl _)
  · split
    · split
      · exact ctxSame_stepAcct (ctxSame_refl _)
      · split
        · rename_i c hcond tp off parent heq
          obtain ⟨hoff, hp⟩ := reproduce_eq_some _ _ _ _ _ _ _ _ _ _ _ heq
          refine ⟨1, keysOf_modifyC _ _ _, rfl, rfl, ?_, rfl, rfl⟩
          simp [hoff, Creature.new]
        · exact ctxSame_stepAcct (ctxSame_refl _)
    · exact ctxSame_stepAcct (ctxSame_refl _)

lemma dispatchAction_acct (cfg : Config) (orc : TickOracle) (ctx : TickCtx)
    (cid x y : Nat) (a : NNAction) :
    StepAcct ctx (dispatchAction cfg orc ctx cid x y a) := by
  cases a with
  | Stay => exact ctxSame_stepAcct (tryEat_same _ _ _)
  | Attack => exact ctxSame_stepAcct (handleAttack_same _ _ _ _)
  | Reproduce => exact reproAttempt_acct _ _ _ _ _ _
  | ShareEnergy => exact ctxSame_stepAcct (handleShare_same _ _ _ _ _)
  | Rest => exact ctxSame_stepAcct (handleRest_same _ _ _)
  | MoveUp => exact ctxSame_stepAcct (handleMove_same _ _ _ _ _ _ _)
  | MoveDown => exact ctxSame_stepAcct (handleMove_same _ _ _ _ _ _ _)
  | MoveLeft => exact ctxSame_stepAcct (handleMove_same _ _ _ _ _ _ _)
  | MoveRight => exact ctxSame_stepAcct (handleMove_same _ _ _ _ _ _ _)
  | SprintUp => exact ctxSame_stepAcct (handleMove_same _ _ _ _ _ _ _)
  | SprintDown => exact ctxSame_stepAcct (handleMove_same _ _ _ _ _ _ _)
  | SprintLeft => exact ctxSame_stepAcct (handleMove_same _ _ _ _ _ _ _)
  | SprintRight => exact ctxSame_stepAcct (handleMove_same _ _ _ _ _ _ _)

lemma processCreature_acct (cfg : Config) (orc : TickOracle) (ctx : TickCtx) (cid : Nat) :
    StepAcct ctx (processCreature cfg orc ctx cid) := by
  unfold processCreature
  split
  · exact ctxSame_stepAcct (ctxSame_refl _)
  · dsimp only
    split
    · refine stepAcct_trans (stepAcct_trans ?_ (dispatchAction_acct _ _ _ _ _ _ _))
        (reproAttempt_acct _ _ _ _ _ _)
      exact ctxSame_stepAcct ⟨keysOf_modifyC _ _ _, rfl, rfl, rfl, rfl, rfl⟩
    · exact ctxSame_stepAcct ⟨keysOf_modifyC _ _ _, rfl, rfl, rfl, rfl, rfl⟩

lemma foldl_processCreature_acct (cfg : Config) (orc : TickOracle) (order : List Nat) :
    ∀ ctx : TickCtx, StepAcct ctx (order.foldl (processCreature cfg orc) ctx) := by
  induction order with
  | nil => intro ctx; exact ctxSame_stepAcct (ctxSame_refl _)
  | cons i rest ih =>
    intro ctx
    exact stepAcct_trans (processCreature_acct cfg orc ctx i) (ih _)

/-- The whole per-creature loop, starting from the phase-1 state with empty
pending list: the loop queues some `k` births carrying exactly the ids
`next_creature_id, …, next_creature_id + k - 1`, increments `total_births`
and `next_creature_id` by `k`, and leaves the key set, `total_deaths` and
the tick counter unchanged. -/
lemma tickCtx_acct (cfg : Config) (orc : TickOracle) (s : SimulationState) :
    ∃ k : Nat,
      keysOf (tickCtx cfg orc s).s.creatures = keysOf s.creatures ∧
      (tickCtx cfg orc s).s.total_births = s.total_births + k ∧
      (tickCtx cfg orc s).s.next_creature_id = s.next_creature_id + k ∧
      (tickCtx cfg orc s).pending.map Creature.id = List.range' s.next_creature_id k ∧
      (tickCtx cfg orc s).s.total_deaths = s.total_deaths ∧
      (tickCtx cfg orc s).s.tick = s.tick := by
  obtain ⟨k, h1, h2, h3, h4, h5, h6⟩ := foldl_processCreature_acct cfg orc orc.order
    (TickCtx.mk { s with world := (s.world.regenerateFood cfg.world.food_regen_rate cfg.world.max_food_per_cell orc.regenDraw).ageAndDecayFood cfg.world.plant_decay_ticks cfg.world.meat_decay_ticks } [] [])
  exact ⟨k, h1, h2, h3, by simpa using h4, h5, h6⟩

/-! ## Accounting through birth commit, death materialization and the
failsafe -/

lemma insertC_of_not_mem (m : List (Nat × Creature)) (cid : Nat) (c : Creature)
    (h : cid ∉ keysOf m) : insertC m cid c = m ++ [(cid, c)] := by
  induction m with
  | nil => rfl
  | cons p rest ih =>
    have h1 : ¬ p.1 = cid := fun he => h (by simp [keysOf, he])
    have h2 : cid ∉ keysOf rest := fun he => h (by simp [keysOf] at he ⊢; exact Or.inr he)
    simp [insertC, h1, ih h2]

lemma commitBirths_fresh (pending : List Creature) : ∀ s : SimulationState,
    (∀ c ∈ pending, c.id ∉ keysOf s.creatures) → (pending.map Creature.id).Nodup →
    (commitBirths s pending).creatures.length = s.creatures.length + pending.length ∧
    keysOf (commitBirths s pending).creatures = keysOf s.creatures ++ pending.map Creature.id ∧
    (commitBirths s pending).total_births = s.total_births ∧
    (commitBirths s pending).total_deaths = s.total_deaths ∧
    (commitBirths s pending).tick = s.tick ∧
    (commitBirths s pending).recently_dead = s.recently_dead := by
  induction pending with
  | nil => intro s _ _; simp [commitBirths]
  | cons c rest ih =>
    intro s hfresh hnodup
    have hc : c.id ∉ keysOf s.creatures := hfresh c (List.mem_cons_self c rest)
    have hstep : commitBirths s (c :: rest)
        = commitBirths { s with creature_positions := s.creature_positions.set c.x c.y c.id, creatures := s.creatures ++ [(c.id, c)] } rest := by
      show List.foldl _ _ (c :: rest) = _
      rw [List.foldl_cons]
      congr 1
      show ({ { s with creature_positions := s.creature_positions.set c.x c.y c.id } with creatures := insertC s.creatures c.id c } : SimulationState) = _
      rw [insertC_of_not_mem s.creatures c.id c hc]
    rw [hstep]
    have hnodup' : (rest.map Creature.id).Nodup := (List.nodup_cons.mp hnodup).2
    have hnotin : c.id ∉ rest.map Creature.id := (List.nodup_cons.mp hnodup).1
    have hfresh' : ∀ c' ∈ rest,
        c'.id ∉ keysOf ({ s with creature_positions := s.creature_positions.set c.x c.y c.id, creatures := s.creatures ++ [(c.id, c)] } : SimulationState).creatures := by
      intro c' hc'
      have h1 : c'.id ∉ keysOf s.creatures := hfresh c' (List.mem_cons_of_mem c hc')
      have h2 : c'.id ≠ c.id := by
        intro he
        exact hnotin (he ▸ List.mem_map_of_mem Creature.id hc')
      simp [keysOf] at h1 ⊢
      exact ⟨h1, h2⟩
    obtain ⟨g1, g2, g3, g4, g5, g6⟩ := ih _ hfresh' hnodup'
    refine ⟨?_, ?_, g3, g4, g5, g6⟩
    · rw [g1]; simp; omega
    · rw [g2]; simp [keysOf]

lemma deathMaterialize_preserves (cfg : Config) (acc : SimulationState) (p : Nat × Creature) :
    (deathMaterialize cfg acc p).creatures = acc.creatures ∧
    (deathMaterialize cfg acc p).total_births = acc.total_births ∧
    (deathMaterialize cfg acc p).total_deaths = acc.total_deaths ∧
    (deathMaterialize cfg acc p).tick = acc.tick ∧
    (deathMaterialize cfg acc p).recently_dead = acc.recently_dead := by
  unfold deathMaterialize SimulationState.removeCreatureFromPosition
  dsimp only
  split <;> split <;> exact ⟨rfl, rfl, rfl, rfl, rfl⟩

lemma foldl_deathMaterialize_preserves (cfg : Config) (l : List (Nat × Creature)) :
    ∀ acc : SimulationState,
    (l.foldl (deathMaterialize cfg) acc).creatures = acc.creatures ∧
    (l.foldl (deathMaterialize cfg) acc).total_births = acc.total_births ∧
    (l.foldl (deathMaterialize cfg) acc).total_deaths = acc.total_deaths ∧
    (l.foldl (deathMaterialize cfg) acc).tick = acc.tick ∧
    (l.foldl (deathMaterialize cfg) acc).recently_dead = acc.recently_dead := by
  induction l with
  | nil => intro acc; exact ⟨rfl, rfl, rfl, rfl, rfl⟩
  | cons p rest ih =>
    intro acc
    obtain ⟨a1, a2, a3, a4, a5⟩ := deathMaterialize_preserves cfg acc p
    obtain ⟨b1, b2, b3, b4, b5⟩ := ih (deathMaterialize cfg acc p)
    rw [List.foldl_cons]
    exact ⟨b1.trans a1, b2.trans a2, b3.trans a3, b4.trans a4, b5.trans a5⟩

lemma length_filter_split (l : List (Nat × Creature)) :
    (l.filter (fun p => p.2.isAlive)).length + (l.filter (fun p => !p.2.isAlive)).length
      = l.length := by
  induction l with
  | nil => rfl
  | cons a rest ih =>
    cases ha : a.2.isAlive <;> simp [List.filter_cons, ha] <;> omega

lemma deathsPhase_acct (cfg : Config) (s : SimulationState) :
    (deathsPhase cfg s).creatures.length
        + (s.creatures.filter (fun p => !p.2.isAlive)).length = s.creatures.length ∧
    (deathsPhase cfg s).total_deaths
        = s.total_deaths + (s.creatures.filter (fun p => !p.2.isAlive)).length ∧
    (deathsPhase cfg s).total_births = s.total_births ∧
    (deathsPhase cfg s).tick = s.tick := by
  obtain ⟨a1, a2, a3, a4, a5⟩ := foldl_deathMaterialize_preserves cfg
    (s.creatures.filter (fun p => !p.2.isAlive)) s
  unfold deathsPhase
  dsimp only
  rw [a1, a2, a3, a4]
  exact ⟨length_filter_split s.creatures, rfl, rfl, rfl⟩

lemma failsafePhase_skip (cfg : Config) (orc : TickOracle) (s : SimulationState)
    (h : (s.creatures.isEmpty && !s.recently_dead.isEmpty) = false) :
    failsafePhase cfg orc s = s := by
  unfold failsafePhase
  rw [h]
  rfl

/-- Whether the extinction failsafe fires in this tick: after deaths are
materialized, the population is empty while the recently-dead FIFO is not. -/
def resurrectionFires (cfg : Config) (orc : TickOracle) (s : SimulationState) : Bool :=
  (tickAfterDeaths cfg orc s).creatures.isEmpty
    && !(tickAfterDeaths cfg orc s).recently_dead.isEmpty

lemma length_eq_keys (m : List (Nat × Creature)) : m.length = (keysOf m).length :=
  (List.length_map _ _).symm

/-- Claim C5 (amended): in any tick in which the extinction failsafe does
not fire, `total_births − total_deaths + initial_population ≥ population`
is preserved: every committed birth increments `total_births`, every
removed corpse increments `total_deaths`, and nothing else changes the
population.  (The unamended claim fails exactly because resurrection adds
population without crediting births.)  The key-bound hypothesis states
that ids in the creature map are below `next_creature_id`, which holds of
every reachable state. -/
theorem counter_invariant_without_resurrection (cfg : Config) (orc : TickOracle)
    (s : SimulationState)
    (hkeys : ∀ kk ∈ keysOf s.creatures, kk < s.next_creature_id)
    (hNoRes : resurrectionFires cfg orc s = false)
    (hInv : (s.creatures.length : ℤ)
      ≤ (s.total_births : ℤ) - (s.total_deaths : ℤ) + (cfg.creature.initial_population : ℤ)) :
    ((tickStep cfg orc s).creatures.length : ℤ)
      ≤ ((tickStep cfg orc s).total_births : ℤ) - ((tickStep cfg orc s).total_deaths : ℤ)
        + (cfg.creature.initial_population : ℤ) := by
  obtain ⟨k, hk1, hk2, hk3, hk4, hk5, hk6⟩ := tickCtx_acct cfg orc s
  have hctxlen : (tickCtx cfg orc s).s.creatures.length = s.creatures.length := by
    rw [length_eq_keys, hk1, ← length_eq_keys]
  have hpendlen : (tickCtx cfg orc s).pending.length = k := by
    have := congrArg List.length hk4
    simpa using this
  have hfresh : ∀ c ∈ (tickCtx cfg orc s).pending,
      c.id ∉ keysOf (tickCtx cfg orc s).s.creatures := by
    intro c hc habs
    have hmem : c.id ∈ List.range' s.next_creature_id k := by
      rw [← hk4]; exact List.mem_map_of_mem Creature.id hc
    have hge : s.next_creature_id ≤ c.id := (List.mem_range'_1.mp hmem).1
    rw [hk1] at habs
    exact absurd (hkeys _ habs) (by omega)
  have hnodup : ((tickCtx cfg orc s).pending.map Creature.id).Nodup := by
    rw [hk4]; exact List.nodup_range' _ _
  obtain ⟨g1, g2, g3, g4, g5, g6⟩ :=
    commitBirths_fresh (tickCtx cfg orc s).pending (tickCtx cfg orc s).s hfresh hnodup
  obtain ⟨d1, d2, d3, d4⟩ :=
    deathsPhase_acct cfg (commitBirths (tickCtx cfg orc s).s (tickCtx cfg orc s).pending)
  have hts : tickStep cfg orc s
      = { tickAfterDeaths cfg orc s with
          attacks_last_tick := (tickCtx cfg orc s).attacks,
          tick := (tickAfterDeaths cfg orc s).tick + 1 } := by
    unfold tickStep
    rw [failsafePhase_skip cfg orc _ hNoRes]
  rw [hts]
  show ((tickAfterDeaths cfg orc s).creatures.length : ℤ)
    ≤ ((tickAfterDeaths cfg orc s).total_births : ℤ)
      - ((tickAfterDeaths cfg orc s).total_deaths : ℤ)
      + (cfg.creature.initial_population : ℤ)
  have e1 : (tickAfterDeaths cfg orc s).creatures.length
      + ((commitBirths (tickCtx cfg orc s).s (tickCtx cfg orc s).pending).creatures.filter
          (fun p => !p.2.isAlive)).length
      = s.creatures.length + k := by
    have := d1
    rw [g1, hctxlen, hpendlen] at this
    exact this
  have e2 : (tickAfterDeaths cfg orc s).total_deaths
      = s.total_deaths
        + ((commitBirths (tickCtx cfg orc s).s (tickCtx cfg orc s).pending).creatures.filter
            (fun p => !p.2.isAlive)).length := by
    rw [show (tickAfterDeaths cfg orc s).total_deaths = _ from d2, g4, hk5]
  have e3 : (tickAfterDeaths cfg orc s).total_births = s.total_births + k := by
    rw [show (tickAfterDeaths cfg orc s).total_births = _ from d3, g3, hk2]
  omega

def oracleEmpty : TickOracle :=
  { order := [], act := fun _ => .Stay, pickDispatch := fun _ => 0, pickStepH := fun _ => 0
    mutDispatch := fun _ _ => none, mutStepH := fun _ _ => none
    regenDraw := fun _ => (0, 0), resDraw := fun _ _ => (0, 0) }

/-- Witness for C5: the preservation theorem applied to the lone-creature
state with an empty processing order (the failsafe does not fire because
the creature survives). -/
theorem counter_invariant_without_resurrection_witness :
    (∀ kk ∈ keysOf stateSolo.creatures, kk < stateSolo.next_creature_id) ∧
    resurrectionFires cfgRepro oracleEmpty stateSolo = false ∧
    ((stateSolo.creatures.length : ℤ) ≤ (stateSolo.total_births : ℤ)
      - (stateSolo.total_deaths : ℤ) + (cfgRepro.creature.initial_population : ℤ)) ∧
    ((tickStep cfgRepro oracleEmpty stateSolo).creatures.length : ℤ)
      ≤ ((tickStep cfgRepro oracleEmpty stateSolo).total_births : ℤ)
        - ((tickStep cfgRepro oracleEmpty stateSolo).total_deaths : ℤ)
        + (cfgRepro.creature.initial_population : ℤ) := by
  have h1 : ∀ kk ∈ keysOf stateSolo.creatures, kk < stateSolo.next_creature_id := by
    simp [keysOf, stateSolo]
  have h2 : resurrectionFires cfgRepro oracleEmpty stateSolo = false := by
    norm_num [resurrectionFires, tickAfterDeaths, tickCtx, deathsPhase, commitBirths,
      oracleEmpty, stateSolo, creature100, cfgRepro, World.regenerateFood,
      World.ageAndDecayFood, CellType.ageFood, CellType.shouldDecay, Creature.isAlive,
      Metabolism.isAlive, List.filter_cons, deathMaterialize]
  have h3 : ((stateSolo.creatures.length : ℤ) ≤ (stateSolo.total_births : ℤ)
      - (stateSolo.total_deaths : ℤ) + (cfgRepro.creature.initial_population : ℤ)) := by
    norm_num [stateSolo, cfgRepro]
  exact ⟨h1, h2, h3, counter_invariant_without_resurrection cfgRepro oracleEmpty stateSolo
    h1 h2 h3⟩

/-! ## Claim C2: the population cap -/

lemma canSpawn_false (s : SimulationState) (maxPop : Nat) (hm : maxPop ≠ 0)
    (hge : maxPop ≤ s.creatures.length) : s.canSpawn maxPop = false := by
  simp only [SimulationState.canSpawn, if_neg hm, decide_eq_false_iff_not, not_lt]
  exact hge

lemma reproAttempt_noSpawn (cfg : Config) (ctx : TickCtx) (cid pick : Nat)
    (mutf : Nat → Option Nat) (incOff : Bool)
    (h : ctx.s.canSpawn cfg.creature.max_population = false) :
    reproAttempt cfg ctx cid pick mutf incOff = ctx := by
  unfold reproAttempt
  split
  · rfl
  · rw [h]
    simp

lemma dispatchAction_noSpawn (cfg : Config) (orc : TickOracle) (ctx : TickCtx)
    (cid x y : Nat) (a : NNAction)
    (h : ctx.s.canSpawn cfg.creature.max_population = false) :
    CtxSame ctx (dispatchAction cfg orc ctx cid x y a) := by
  cases a with
  | Stay => exact tryEat_same _ _ _
  | Attack => exact handleAttack_same _ _ _ _
  | Reproduce =>
    show CtxSame ctx (reproAttempt cfg ctx cid _ _ true)
    rw [reproAttempt_noSpawn _ _ _ _ _ _ h]
    exact ctxSame_refl _
  | ShareEnergy => exact handleShare_same _ _ _ _ _
  | Rest => exact handleRest_same _ _ _
  | MoveUp => exact handleMove_same _ _ _ _ _ _ _
  | MoveDown => exact handleMove_same _ _ _ _ _ _ _
  | MoveLeft => exact handleMove_same _ _ _ _ _ _ _
  | MoveRight => exact handleMove_same _ _ _ _ _ _ _
  | SprintUp => exact handleMove_same _ _ _ _ _ _ _
  | SprintDown => exact handleMove_same _ _ _ _ _ _ _
  | SprintLeft => exact handleMove_same _ _ _ _ _ _ _
  | SprintRight => exact handleMove_same _ _ _ _ _ _ _

lemma ctxSame_length {a b : TickCtx} (h : CtxSame a b) :
    b.s.creatures.length = a.s.creatures.length := by
  rw [length_eq_keys, h.1, ← length_eq_keys]

lemma dispatch_then_stepH_noSpawn (cfg : Config) (orc : TickOracle) (ctx1 : TickCtx)
    (cid x y : Nat) (hm : cfg.creature.max_population ≠ 0)
    (hge1 : cfg.creature.max_population ≤ ctx1.s.creatures.length) :
    CtxSame ctx1 (reproAttempt cfg (dispatchAction cfg orc ctx1 cid x y (orc.act cid)) cid
      (orc.pickStepH cid) (orc.mutStepH cid) false) := by
  have h2 := dispatchAction_noSpawn cfg orc ctx1 cid x y (orc.act cid)
    (canSpawn_false _ _ hm hge1)
  refine ctxSame_trans h2 ?_
  rw [reproAttempt_noSpawn _ _ _ _ _ _
    (canSpawn_false _ _ hm (by rw [ctxSame_length h2]; exact hge1))]
  exact ctxSame_refl _

lemma processCreature_noSpawn (cfg : Config) (orc : TickOracle) (ctx : TickCtx) (cid : Nat)
    (hm : cfg.creature.max_population ≠ 0)
    (hge : cfg.creature.max_population ≤ ctx.s.creatures.length) :
    CtxSame ctx (processCreature cfg orc ctx cid) := by
  unfold processCreature
  split
  · exact ctxSame_refl _
  · dsimp only
    split
    · exact ctxSame_trans
        (b := { ctx with s := { ctx.s with creatures := modifyC ctx.s.creatures cid (stepAtoE cfg.creature.max_age_ticks cfg.creature.energy_cost_per_tick cfg.combat.health_regen_rate cfg.combat.health_regen_energy_cost) } })
        ⟨keysOf_modifyC _ _ _, rfl, rfl, rfl, rfl, rfl⟩
        (dispatch_then_stepH_noSpawn cfg orc _ cid _ _ hm
          (by dsimp only; rw [length_modifyC]; exact hge))
    · exact ⟨keysOf_modifyC _ _ _, rfl, rfl, rfl, rfl, rfl⟩

lemma foldl_processCreature_noSpawn (cfg : Config) (orc : TickOracle) (order : List Nat)
    (hm : cfg.creature.max_population ≠ 0) : ∀ ctx : TickCtx,
    cfg.creature.max_population ≤ ctx.s.creatures.length →
    CtxSame ctx (order.foldl (processCreature cfg orc) ctx) := by
  induction order with
  | nil => intro ctx _; exact ctxSame_refl _
  | cons i rest ih =>
    intro ctx hge
    have h1 := processCreature_noSpawn cfg orc ctx i hm hge
    refine ctxSame_trans h1 (ih _ ?_)
    rw [ctxSame_length h1]
    exact hge

/-- Claim C2 (amended): the cap check `can_spawn_new_creature` compares
only the committed population, which is constant during the loop; hence in
a tick whose starting population is at or above `max_population` (with
`max_population > 0`) no offspring is queued and `total_births` does not
move.  (The unamended claim fails because every creature of a tick that
starts strictly below the cap may queue a birth against the same committed
count, so the committed population after step 4 can exceed
`max_population`.) -/
theorem no_births_at_or_above_cap (cfg : Config) (orc : TickOracle) (s : SimulationState)
    (hm : cfg.creature.max_population ≠ 0)
    (hge : cfg.creature.max_population ≤ s.creatures.length) :
    (tickCtx cfg orc s).pending = [] ∧
    (tickCtx cfg orc s).s.total_births = s.total_births ∧
    (tickCtx cfg orc s).s.creatures.length = s.creatures.length := by
  have h := foldl_processCreature_noSpawn cfg orc orc.order hm
    (TickCtx.mk { s with world := (s.world.regenerateFood cfg.world.food_regen_rate cfg.world.max_food_per_cell orc.regenDraw).ageAndDecayFood cfg.world.plant_decay_ticks cfg.world.meat_decay_ticks } [] []) hge
  exact ⟨h.2.2.2.1, h.2.1, ctxSame_length h⟩

/-- The reproduction test configuration with the population cap lowered to
1, so the lone-creature state is exactly at the cap. -/
def cfgCap1 : Config :=
  { cfgRepro with creature := { cfgRepro.creature with max_population := 1 } }

/-- Witness for C2-amended: the lone-creature state at the cap runs a tick
without queuing any birth. -/
theorem no_births_at_or_above_cap_witness :
    cfgCap1.creature.max_population ≠ 0 ∧
    cfgCap1.creature.max_population ≤ stateSolo.creatures.length ∧
    (tickCtx cfgCap1 oracleStay stateSolo).pending = [] := by
  have h1 : cfgCap1.creature.max_population ≠ 0 := by norm_num [cfgCap1, cfgRepro]
  have h2 : cfgCap1.creature.max_population ≤ stateSolo.creatures.length := by
    norm_num [cfgCap1, cfgRepro, stateSolo]
  exact ⟨h1, h2, (no_births_at_or_above_cap cfgCap1 oracleStay stateSolo h1 h2).1⟩

/-! ## Claim C3: what dispatching `Reproduce` actually does -/

lemma reproAttempt_pending_le (cfg : Config) (ctx : TickCtx) (cid pick : Nat)
    (mutf : Nat → Option Nat) (incOff : Bool) :
    (reproAttempt cfg ctx cid pick mutf incOff).pending.length ≤ ctx.pending.length + 1 := by
  unfold reproAttempt
  split
  · exact Nat.le_succ _
  · split
    · split
      · exact Nat.le_succ _
      · split
        · simp
        · exact Nat.le_succ _
    · exact Nat.le_succ _

lemma reproAttempt_cases (cfg : Config) (ctx : TickCtx) (cid pick : Nat)
    (mutf : Nat → Option Nat) (incOff : Bool) :
    reproAttempt cfg ctx cid pick mutf incOff = ctx ∨
    ((reproAttempt cfg ctx cid pick mutf incOff).pending.length = ctx.pending.length + 1 ∧
     (reproAttempt cfg ctx cid pick mutf incOff).s.tick = ctx.s.tick ∧
     ∃ p', lookupC (reproAttempt cfg ctx cid pick mutf incOff).s.creatures cid = some p' ∧
       p'.last_reproduce_tick = ctx.s.tick) := by
  unfold reproAttempt
  split
  · exact Or.inl rfl
  · rename_i c hlook
    split
    · split
      · exact Or.inl rfl
      · split
        · rename_i rp off parent heq
          obtain ⟨hoff, hp⟩ := reproduce_eq_some _ _ _ _ _ _ _ _ _ _ _ heq
          refine Or.inr ⟨by simp, rfl, ?_⟩
          refine ⟨if incOff then parent.incrementOffspring else parent, ?_, ?_⟩
          · rw [lookupC_modifyC_self, hlook]
            rfl
          · cases incOff <;> simp [Creature.incrementOffspring, hp]
        · exact Or.inl rfl
    · exact Or.inl rfl

lemma reproAttempt_cooldown_block (cfg : Config) (ctx : TickCtx) (cid pick : Nat)
    (mutf : Nat → Option Nat) (incOff : Bool)
    (hcool : 1 ≤ cfg.creature.reproduce_cooldown_ticks)
    (p' : Creature) (hp : lookupC ctx.s.creatures cid = some p')
    (hlast : p'.last_reproduce_tick = ctx.s.tick) :
    reproAttempt cfg ctx cid pick mutf incOff = ctx := by
  have hfalse : p'.canReproduce cfg.creature.min_reproduce_energy ctx.s.tick
      cfg.creature.reproduce_cooldown_ticks = false := by
    unfold Creature.canReproduce
    rw [hlast, Nat.sub_self]
    have : ¬ cfg.creature.reproduce_cooldown_ticks ≤ 0 := by omega
    simp [this]
  unfold reproAttempt
  rw [hp]
  simp [hfalse]

lemma dispatch_then_stepH_bound (cfg : Config) (orc : TickOracle) (ctx1 : TickCtx)
    (cid x y : Nat) :
    (reproAttempt cfg (dispatchAction cfg orc ctx1 cid x y (orc.act cid)) cid
        (orc.pickStepH cid) (orc.mutStepH cid) false).pending.length
      ≤ ctx1.pending.length + 2 ∧
    (1 ≤ cfg.creature.reproduce_cooldown_ticks →
      (reproAttempt cfg (dispatchAction cfg orc ctx1 cid x y (orc.act cid)) cid
          (orc.pickStepH cid) (orc.mutStepH cid) false).pending.length
        ≤ ctx1.pending.length + 1) := by
  generalize orc.act cid = a
  have hnonrep : ∀ b : NNAction, b ≠ .Reproduce →
      (dispatchAction cfg orc ctx1 cid x y b).pending = ctx1.pending := by
    intro b hb
    cases b with
    | Reproduce => exact absurd rfl hb
    | Stay => exact (tryEat_same _ _ _).2.2.2.1
    | Attack => exact (handleAttack_same _ _ _ _).2.2.2.1
    | ShareEnergy => exact (handleShare_same _ _ _ _ _).2.2.2.1
    | Rest => exact (handleRest_same _ _ _).2.2.2.1
    | MoveUp => exact (handleMove_same _ _ _ _ _ _ _).2.2.2.1
    | MoveDown => exact (handleMove_same _ _ _ _ _ _ _).2.2.2.1
    | MoveLeft => exact (handleMove_same _ _ _ _ _ _ _).2.2.2.1
    | MoveRight => exact (handleMove_same _ _ _ _ _ _ _).2.2.2.1
    | SprintUp => exact (handleMove_same _ _ _ _ _ _ _).2.2.2.1
    | SprintDown => exact (handleMove_same _ _ _ _ _ _ _).2.2.2.1
    | SprintLeft => exact (handleMove_same _ _ _ _ _ _ _).2.2.2.1
    | SprintRight => exact (handleMove_same _ _ _ _ _ _ _).2.2.2.1
  by_cases ha : a = .Reproduce
  · subst ha
    constructor
    · have h1 := reproAttempt_pending_le cfg ctx1 cid (orc.pickDispatch cid)
        (orc.mutDispatch cid) true
      have h2 := reproAttempt_pending_le cfg
        (dispatchAction cfg orc ctx1 cid x y .Reproduce) cid (orc.pickStepH cid)
        (orc.mutStepH cid) false
      show (reproAttempt cfg (dispatchAction cfg orc ctx1 cid x y .Reproduce) cid _ _ false).pending.length ≤ _
      have hd : (dispatchAction cfg orc ctx1 cid x y .Reproduce).pending.length
          ≤ ctx1.pending.length + 1 := h1
      omega
    · intro hcool
      rcases reproAttempt_cases cfg ctx1 cid (orc.pickDispatch cid) (orc.mutDispatch cid)
        true with hcase | ⟨hpend, htick, p', hp, hlast⟩
      · show (reproAttempt cfg (dispatchAction cfg orc ctx1 cid x y .Reproduce) cid _ _ false).pending.length ≤ _
        have hd : dispatchAction cfg orc ctx1 cid x y .Reproduce = ctx1 := hcase
        rw [hd]
        exact reproAttempt_pending_le cfg ctx1 cid _ _ false
      · show (reproAttempt cfg (reproAttempt cfg ctx1 cid (orc.pickDispatch cid) (orc.mutDispatch cid) true) cid (orc.pickStepH cid) (orc.mutStepH cid) false).pending.length ≤ ctx1.pending.length + 1
        rw [reproAttempt_cooldown_block cfg _ cid _ _ false hcool p' hp (by rw [htick]; exact hlast)]
        omega
  · have hd := hnonrep a ha
    have h2 := reproAttempt_pending_le cfg (dispatchAction cfg orc ctx1 cid x y a) cid
      (orc.pickStepH cid) (orc.mutStepH cid) false
    rw [hd] at h2
    exact ⟨by omega, fun _ => h2⟩

/-- Claim C3 (amended): dispatching `Reproduce` is not a no-op — it runs a
full reproduction attempt (the same eligibility checks and effects as step
3h, plus an `increment_offspring` on the parent; see
`reproduce_dispatch_not_noop_cex`).  What holds instead: across one
creature's processing (dispatch plus the step-3h attempt) at most two
offspring are queued, and at most one whenever
`reproduce_cooldown_ticks ≥ 1`, because a successful dispatch stamps
`last_reproduce_tick` with the current tick, which fails the step-3h
cooldown check. -/
theorem reproduce_dispatch_bound (cfg : Config) (orc : TickOracle) (ctx : TickCtx)
    (cid : Nat) :
    (processCreature cfg orc ctx cid).pending.length ≤ ctx.pending.length + 2 ∧
    (1 ≤ cfg.creature.reproduce_cooldown_ticks →
      (processCreature cfg orc ctx cid).pending.length ≤ ctx.pending.length + 1) := by
  unfold processCreature
  split
  · exact ⟨by omega, fun _ => by omega⟩
  · dsimp only
    split
    · exact dispatch_then_stepH_bound cfg orc _ cid _ _
    · exact ⟨by dsimp only; omega, fun _ => by dsimp only; omega⟩

/-- Witness for C3-amended: on the lone-creature reproduction state
(cooldown raised to 1) a full creature processing queues at most one
offspring. -/
theorem reproduce_dispatch_bound_witness :
    1 ≤ ({ cfgRepro with creature := { cfgRepro.creature with reproduce_cooldown_ticks := 1 } } : Config).creature.reproduce_cooldown_ticks ∧
    (processCreature { cfgRepro with creature := { cfgRepro.creature with reproduce_cooldown_ticks := 1 } } oracleStay ⟨stateSolo, [], []⟩ 0).pending.length
      ≤ (⟨stateSolo, [], []⟩ : TickCtx).pending.length + 1 :=
  ⟨by norm_num [cfgRepro],
    (reproduce_dispatch_bound _ oracleStay ⟨stateSolo, [], []⟩ 0).2 (by norm_num [cfgRepro])⟩

/-! ## Claim C1: positions — what movement does and does not guarantee -/

lemma lookupC_pos_modifyC (m : List (Nat × Creature)) (cid j : Nat) (f : Creature → Creature)
    (hf : ∀ c, ((f c).x, (f c).y) = (c.x, c.y)) :
    (lookupC (modifyC m cid f) j).map (fun c => (c.x, c.y))
      = (lookupC m j).map (fun c => (c.x, c.y)) := by
  by_cases h : j = cid
  · subst h
    rw [lookupC_modifyC_self]
    cases lookupC m j <;> simp [hf]
  · rw [lookupC_modifyC_ne _ _ _ _ h]

/-- Claim C1 (amended): the end-of-tick distinct-positions invariant does
not hold (see `births_can_collide_cex`: offspring placement checks only
the food layer).  What does hold is that movement never creates a
collision: whenever the clamped target of a Move/Sprint carries a
spatial-index entry, `handle_move_action` leaves the mover's position and
the entire spatial index unchanged. -/
theorem move_never_onto_occupied (cfg : Config) (ctx : TickCtx) (cid x y : Nat)
    (a : NNAction) (cost : ℚ) (tid : Nat)
    (ht : ctx.s.creatureAt (moveTarget ctx.s.world x y a).1 (moveTarget ctx.s.world x y a).2
      = some tid) :
    (lookupC (handleMove cfg ctx cid x y a cost).s.creatures cid).map (fun c => (c.x, c.y))
      = (lookupC ctx.s.creatures cid).map (fun c => (c.x, c.y)) ∧
    (handleMove cfg ctx cid x y a cost).s.creature_positions = ctx.s.creature_positions := by
  unfold handleMove
  split
  · exact ⟨rfl, rfl⟩
  · rename_i c heq
    dsimp only
    split
    · rw [ht]
      dsimp only
      split
      · refine ⟨?_, rfl⟩
        rw [lookupC_pos_modifyC]
        intro c0; rfl
      · refine ⟨?_, rfl⟩
        rw [lookupC_pos_modifyC, lookupC_pos_modifyC]
        · intro c0; rfl
        · intro c0; rfl
    · refine ⟨?_, rfl⟩
      rw [lookupC_pos_modifyC]
      intro c0; rfl

/-- Witness for C1-amended: the mover of the C6 scenario keeps its
position and the spatial index is untouched. -/
theorem move_never_onto_occupied_witness :
    ctxMove.s.creatureAt (moveTarget ctxMove.s.world 0 0 .MoveRight).1
      (moveTarget ctxMove.s.world 0 0 .MoveRight).2 = some 1 ∧
    (lookupC (handleMove cfgRepro ctxMove 0 0 0 .MoveRight 1).s.creatures 0).map
        (fun c => (c.x, c.y))
      = (lookupC ctxMove.s.creatures 0).map (fun c => (c.x, c.y)) ∧
    (handleMove cfgRepro ctxMove 0 0 0 .MoveRight 1).s.creature_positions
      = ctxMove.s.creature_positions :=
  ⟨rfl, (move_never_onto_occupied cfgRepro ctxMove 0 0 0 .MoveRight 1 1 rfl).1,
    (move_never_onto_occupied cfgRepro ctxMove 0 0 0 .MoveRight 1 1 rfl).2⟩

/-! ## Claim C10: creatures that die before their turn -/

lemma takeDamage_self_health (m : Metabolism) : (m.takeDamage m.health).health = 0 := by
  simp [Metabolism.takeDamage]

lemma takeDamage_energy (m : Metabolism) (a : ℚ) : (m.takeDamage a).energy = m.energy := rfl

lemma consumeEnergy_health (m : Metabolism) (a : ℚ) :
    (m.consumeEnergy a).2.health = m.health := by
  unfold Metabolism.consumeEnergy
  split <;> rfl

lemma consumeEnergy_energy_congr (m m' : Metabolism) (h : m.energy = m'.energy) (a : ℚ) :
    (m.consumeEnergy a).2.energy = (m'.consumeEnergy a).2.energy := by
  simp only [Metabolism.consumeEnergy]
  rw [h]
  split <;> simp [h]

lemma passiveHeal_health_nonpos (m : Metabolism) (R C : ℚ) (hh : m.health ≤ 0)
    (hstay : m.energy < C ∨ R ≤ 0) : (m.passiveHeal R C).2.health ≤ 0 := by
  unfold Metabolism.passiveHeal
  split
  · rename_i hc
    rcases hstay with hE | hR
    · exact absurd hc.2 (by linarith)
    · rw [consumeEnergy_health]
      calc (m.heal R).health ≤ m.health + R := min_le_left _ _
        _ ≤ 0 := by linarith
  · exact hh

lemma stepAtoE_stays_dead (A : Nat) (E R C : ℚ) (c : Creature)
    (hdead : c.metabolism.health ≤ 0)
    (hstay : (c.metabolism.consumeEnergy E).2.energy < C ∨ R ≤ 0) :
    (stepAtoE A E R C c).metabolism.health ≤ 0 := by
  unfold stepAtoE
  dsimp only
  split_ifs with hage hstarve hstarve <;>
    (refine passiveHeal_health_nonpos _ _ _ ?_ ?_
     · dsimp only
       first
         | (rw [takeDamage_self_health])
         | (rw [consumeEnergy_health, takeDamage_self_health])
         | (rw [consumeEnergy_health]; exact hdead)
     · rcases hstay with hE | hR
       · left
         dsimp only
         first
           | (exact hE)
           | (rw [takeDamage_energy]; exact hE)
           | (rw [consumeEnergy_energy_congr (c.metabolism.takeDamage c.metabolism.health) c.metabolism rfl E]
              exact hE)
           | (rw [takeDamage_energy,
                consumeEnergy_energy_congr (c.metabolism.takeDamage c.metabolism.health) c.metabolism rfl E]
              exact hE)
       · exact Or.inr hR)

lemma isAlive_false_of_nonpos (c : Creature) (h : c.metabolism.health ≤ 0) :
    c.isAlive = false := by
  simp only [Creature.isAlive, Metabolism.isAlive, decide_eq_false_iff_not, not_lt]
  exact h

lemma stepAtoE_pos (A : Nat) (E R C : ℚ) (c : Creature) :
    (stepAtoE A E R C c).x = c.x ∧ (stepAtoE A E R C c).y = c.y := by
  unfold stepAtoE
  dsimp only
  split_ifs <;> exact ⟨rfl, rfl⟩

/-- The steps-3a–3d metabolic update at a configuration's parameters. -/
def stepDfn (cfg : Config) : Creature → Creature :=
  stepAtoE cfg.creature.max_age_ticks cfg.creature.energy_cost_per_tick
    cfg.combat.health_regen_rate cfg.combat.health_regen_energy_cost

lemma processCreature_dead (cfg : Config) (orc : TickOracle) (ctx : TickCtx) (cid : Nat)
    (c : Creature) (hlook : lookupC ctx.s.creatures cid = some c)
    (hna : (stepDfn cfg c).isAlive = false) :
    processCreature cfg orc ctx cid =
      { ctx with s := { ctx.s with creatures := modifyC ctx.s.creatures cid (stepDfn cfg) } } := by
  unfold processCreature
  rw [hlook]
  dsimp only
  rw [show stepAtoE cfg.creature.max_age_ticks cfg.creature.energy_cost_per_tick cfg.combat.health_regen_rate cfg.combat.health_regen_energy_cost c = stepDfn cfg c from rfl, hna]
  simp only [Bool.false_eq_true, ite_false]
  rfl

/-- Claim C10 (corrected): a creature whose health is already 0 when its
turn comes performs no action that tick PROVIDED passive healing cannot
fire for it (its post-debit energy is below `health_regen_energy_cost`, or
the regen rate is nonpositive) — the spec misses that `passive_heal` runs
before the alive check and can revive such a corpse, which then acts (see
the counterexample).  Under that proviso the whole loop iteration is the
bare metabolic update: the corpse stays in the creature map (its looked-up
entry is the stepped creature, still at health ≤ 0 and at its old cell)
and the spatial index is untouched, so later movers still find it; a
later-acting creature whose move targets the corpse's cell strikes it for
`damage_per_attack` instead of moving (spatial index unchanged), and an
`Attack` strike on its cell damages it by `damage_per_strong_attack`. -/
theorem corpse_inert_when_cannot_heal (cfg : Config) (orc : TickOracle) (ctx : TickCtx)
    (cid : Nat) (c : Creature)
    (hlook : lookupC ctx.s.creatures cid = some c)
    (hdead : c.metabolism.health ≤ 0)
    (hstay : (c.metabolism.consumeEnergy cfg.creature.energy_cost_per_tick).2.energy
        < cfg.combat.health_regen_energy_cost ∨ cfg.combat.health_regen_rate ≤ 0) :
    (processCreature cfg orc ctx cid =
      { ctx with s := { ctx.s with creatures := modifyC ctx.s.creatures cid (stepDfn cfg) } }) ∧
    lookupC (processCreature cfg orc ctx cid).s.creatures cid = some (stepDfn cfg c) ∧
    (stepDfn cfg c).metabolism.health ≤ 0 ∧
    (stepDfn cfg c).x = c.x ∧ (stepDfn cfg c).y = c.y ∧
    (processCreature cfg orc ctx cid).s.creature_positions = ctx.s.creature_positions ∧
    (∀ (ctx2 : TickCtx) (mid mx my : Nat) (a : NNAction) (cost : ℚ) (m c2 : Creature),
      lookupC ctx2.s.creatures mid = some m →
      ctx2.s.creatureAt (moveTarget ctx2.s.world mx my a).1 (moveTarget ctx2.s.world mx my a).2
        = some cid →
      cid ≠ mid →
      lookupC ctx2.s.creatures cid = some c2 →
      cost ≤ m.metabolism.energy →
      (handleMove cfg ctx2 mid mx my a cost).s.creature_positions = ctx2.s.creature_positions ∧
      lookupC (handleMove cfg ctx2 mid mx my a cost).s.creatures cid
        = some { c2 with metabolism := c2.metabolism.takeDamage cfg.combat.damage_per_attack, last_damage_taken := cfg.combat.damage_per_attack }) ∧
    (∀ (acc : TickCtx) (p : (Nat × Nat) × Direction) (c2 : Creature),
      acc.s.creatureAt p.1.1 p.1.2 = some cid →
      lookupC acc.s.creatures cid = some c2 →
      lookupC (attackStrike cfg acc p).s.creatures cid
        = some { c2 with metabolism := c2.metabolism.takeDamage cfg.combat.damage_per_strong_attack, last_damage_taken := cfg.combat.damage_per_strong_attack }) := by
  have hd2 : (stepDfn cfg c).metabolism.health ≤ 0 :=
    stepAtoE_stays_dead cfg.creature.max_age_ticks cfg.creature.energy_cost_per_tick
      cfg.combat.health_regen_rate cfg.combat.health_regen_energy_cost c hdead hstay
  have hna := isAlive_false_of_nonpos _ hd2
  have hmain := processCreature_dead cfg orc ctx cid c hlook hna
  have hxy := stepAtoE_pos cfg.creature.max_age_ticks cfg.creature.energy_cost_per_tick
    cfg.combat.health_regen_rate cfg.combat.health_regen_energy_cost c
  refine ⟨hmain, ?_, hd2, hxy.1, hxy.2, ?_, ?_, ?_⟩
  · rw [hmain]
    show lookupC (modifyC ctx.s.creatures cid (stepDfn cfg)) cid = some (stepDfn cfg c)
    rw [lookupC_modifyC_self, hlook]
    rfl
  · rw [hmain]
  · intro ctx2 mid mx my a cost m c2 hm hc hne hc2 hcost
    rw [handleMove_occupied_hit cfg ctx2 mid mx my a cost cid m c2 hm hc hne hc2 hcost]
    refine ⟨rfl, ?_⟩
    show lookupC (modifyC (modifyC ctx2.s.creatures mid (fun c0 => { c0 with metabolism := (c0.metabolism.consumeEnergy cost).2 })) cid (fun t1 => ({ t1 with metabolism := t1.metabolism.takeDamage cfg.combat.damage_per_attack } : Creature).recordDamage cfg.combat.damage_per_attack)) cid = _
    rw [lookupC_modifyC_self, lookupC_modifyC_ne _ _ _ _ hne, hc2]
    simp [Creature.recordDamage]
  · intro acc p c2 hca hc2
    simp only [attackStrike, hca, hc2]
    show lookupC (modifyC acc.s.creatures cid (fun t1 => ({ t1 with metabolism := t1.metabolism.takeDamage cfg.combat.damage_per_strong_attack } : Creature).recordDamage cfg.combat.damage_per_strong_attack)) cid = _
    rw [lookupC_modifyC_self, hc2]
    simp [Creature.recordDamage]

def corpseC : Creature :=
  { id := 5, x := 0, y := 0, genome := genome0
    metabolism := { energy := 0, max_energy := 200, health := 0, max_health := 100 }
    last_reproduce_tick := 0, age := 0, offspring_count := 0, last_damage_taken := 0 }

def ctxCorpse : TickCtx :=
  { s := { world := ⟨1, 1, [.Empty]⟩, creatures := [(5, corpseC)]
           creature_positions := ⟨1, 1, [some 5]⟩, attacks_last_tick := []
           recently_dead := [], tick := 0, next_creature_id := 6, total_births := 0
           total_deaths := 0 }
    pending := [], attacks := [] }

/-- Witness for C10: a corpse with 0 energy under `cfgRepro` (regen cost 2)
cannot heal, so its loop iteration is the bare metabolic update. -/
theorem corpse_inert_when_cannot_heal_witness :
    lookupC ctxCorpse.s.creatures 5 = some corpseC ∧
    corpseC.metabolism.health ≤ 0 ∧
    ((corpseC.metabolism.consumeEnergy cfgRepro.creature.energy_cost_per_tick).2.energy
        < cfgRepro.combat.health_regen_energy_cost ∨ cfgRepro.combat.health_regen_rate ≤ 0) ∧
    processCreature cfgRepro oracleStay ctxCorpse 5 =
      { ctxCorpse with s := { ctxCorpse.s with creatures := modifyC ctxCorpse.s.creatures 5 (stepDfn cfgRepro) } } := by
  have h1 : lookupC ctxCorpse.s.creatures 5 = some corpseC := rfl
  have h2 : corpseC.metabolism.health ≤ 0 := by norm_num [corpseC]
  have h3 : ((corpseC.metabolism.consumeEnergy cfgRepro.creature.energy_cost_per_tick).2.energy
      < cfgRepro.combat.health_regen_energy_cost ∨ cfgRepro.combat.health_regen_rate ≤ 0) := by
    left
    norm_num [corpseC, cfgRepro, Metabolism.consumeEnergy]
  exact ⟨h1, h2, h3,
    (corpse_inert_when_cannot_heal cfgRepro oracleStay ctxCorpse 5 corpseC h1 h2 h3).1⟩

def oracleRight : TickOracle :=
  { order := [0], act := fun _ => .MoveRight, pickDispatch := fun _ => 0, pickStepH := fun _ => 0
    mutDispatch := fun _ _ => none, mutStepH := fun _ _ => none
    regenDraw := fun _ => (0, 0), resDraw := fun _ _ => (0, 0) }

def corpse0 : Creature :=
  { id := 0, x := 0, y := 0, genome := genome0
    metabolism := { energy := 10, max_energy := 200, health := 0, max_health := 100 }
    last_reproduce_tick := 0, age := 0, offspring_count := 0, last_damage_taken := 0 }

def ctxRevive : TickCtx :=
  { s := { world := ⟨2, 1, [.Empty, .Empty]⟩, creatures := [(0, corpse0)]
           creature_positions := ⟨2, 1, [some 0, none]⟩, attacks_last_tick := []
           recently_dead := [], tick := 0, next_creature_id := 1, total_births := 0
           total_deaths := 0 }
    pending := [], attacks := [] }

/-- Counterexample for C10's blanket "performs no action": a creature at
health 0 but with 10 energy is revived by `passive_heal` (to health 2,
paying 2 energy) during its own metabolic step, passes the alive check and
then ACTS: it moves right (paying 1 more energy) and its spatial-index
entry moves with it. -/
theorem corpse_revived_by_passive_heal_cex :
    (lookupC ctxRevive.s.creatures 0).map (fun c => c.metabolism.health) = some 0 ∧
    (lookupC (processCreature cfgRepro oracleRight ctxRevive 0).s.creatures 0).map
        (fun c => (c.x, c.y, c.metabolism.health, c.metabolism.energy)) = some (1, 0, 2, 7) ∧
    (processCreature cfgRepro oracleRight ctxRevive 0).s.creature_positions.cells
      = [none, some 0] := by
  refine ⟨rfl, ?_, ?_⟩ <;>
    norm_num [processCreature, lookupC, stepAtoE, Creature.isAlive, Metabolism.isAlive,
      Metabolism.consumeEnergy, Metabolism.passiveHeal, Metabolism.heal, dispatchAction,
      handleMove, moveTarget, NNAction.toDelta, SimulationState.creatureAt, SpatialIndex.get,
      SpatialIndex.set, SpatialIndex.clear, SimulationState.updateCreaturePosition,
      World.get, CellType.isEmptyCell, CellType.isFood, tryEat, reproAttempt,
      Creature.canReproduce, Metabolism.canAfford, modifyC, ctxRevive, corpse0, cfgRepro,
      oracleRight, Creature.recordDamage]

def poorB : Creature :=
  { id := 1, x := 1, y := 0, genome := genome0
    metabolism := { energy := 20, max_energy := 200, health := 100, max_health := 100 }
    last_reproduce_tick := 0, age := 0, offspring_count := 0, last_damage_taken := 0 }

def stateAB : SimulationState :=
  { world := ⟨2, 1, [.Empty, .Empty]⟩, creatures := [(0, moverA), (1, poorB)]
    creature_positions := ⟨2, 1, [some 0, some 1]⟩, attacks_last_tick := [], recently_dead := []
    tick := 0, next_creature_id := 2, total_births := 0, total_deaths := 0 }

/-- Counterexample for C1: at the end of a tick two creatures can share a
cell.  In a 2×1 world creature 0 at (0,0) reproduces into (1,0) —
`empty_neighbors` consults only the food layer, so the cell occupied by
creature 1 is accepted for the offspring — and after the birth is
committed both creature 1 and the newborn creature 2 sit at (1,0). -/
theorem births_can_collide_cex :
    (lookupC (tickStep cfgRepro oracleStay stateAB).creatures 1).map (fun c => (c.x, c.y))
      = some (1, 0) ∧
    (lookupC (tickStep cfgRepro oracleStay stateAB).creatures 2).map (fun c => (c.x, c.y))
      = some (1, 0) := by
  constructor <;>
    norm_num [tickStep, tickAfterDeaths, tickCtx, failsafePhase, deathsPhase, deathMaterialize,
      pushDead, commitBirths, processCreature, dispatchAction, reproAttempt, tryEat, stepAtoE,
      lookupC, modifyC, insertC, findEmptyNeighbor, World.regenerateFood, World.ageAndDecayFood,
      World.emptyNeighbors, World.neighbors, World.neighborDeltas, World.get, World.modifyCell,
      World.setCell, CellType.isEmptyCell, CellType.isFood, CellType.ageFood,
      CellType.shouldDecay, Creature.isAlive, Metabolism.isAlive, Creature.canReproduce,
      Metabolism.canAfford, Creature.reproduce, Creature.new, Metabolism.new, Genome.fromParent,
      Metabolism.consumeEnergy, Metabolism.passiveHeal, Metabolism.heal,
      SimulationState.canSpawn, SimulationState.creatureAt, SpatialIndex.get, SpatialIndex.set,
      List.filter_cons, List.filterMap_cons, List.foldl_cons, List.foldl_nil,
      stateAB, moverA, poorB, genome0, cfgRepro, oracleStay]

def cfgCap3 : Config :=
  { cfgRepro with creature := { cfgRepro.creature with max_population := 3 } }

def richB : Creature :=
  { id := 1, x := 2, y := 0, genome := genome0
    metabolism := { energy := 100, max_energy := 200, health := 100, max_health := 100 }
    last_reproduce_tick := 0, age := 0, offspring_count := 0, last_damage_taken := 0 }

def stateTwoRich : SimulationState :=
  { world := ⟨3, 1, [.Empty, .Empty, .Empty]⟩, creatures := [(0, moverA), (1, richB)]
    creature_positions := ⟨3, 1, [some 0, none, some 1]⟩, attacks_last_tick := []
    recently_dead := [], tick := 0, next_creature_id := 2, total_births := 0, total_deaths := 0 }

/-- Counterexample for C2: with `max_population = 3` and 2 creatures
committed, both parents pass `can_spawn_new_creature` in the same tick
(pending offspring are not counted), so after step 4 the population is 4,
exceeding the cap. -/
theorem population_cap_overshoot_cex :
    stateTwoRich.creatures.length ≤ cfgCap3.creature.max_population ∧
    cfgCap3.creature.max_population = 3 ∧
    (tickStep cfgCap3 oracleStay stateTwoRich).creatures.length = 4 := by
  refine ⟨by norm_num [stateTwoRich, cfgCap3, cfgRepro], by norm_num [cfgCap3, cfgRepro], ?_⟩
  norm_num [tickStep, tickAfterDeaths, tickCtx, failsafePhase, deathsPhase, deathMaterialize,
    pushDead, commitBirths, processCreature, dispatchAction, reproAttempt, tryEat, stepAtoE,
    lookupC, modifyC, insertC, findEmptyNeighbor, World.regenerateFood, World.ageAndDecayFood,
    World.emptyNeighbors, World.neighbors, World.neighborDeltas, World.get, World.modifyCell,
    World.setCell, CellType.isEmptyCell, CellType.isFood, CellType.ageFood,
    CellType.shouldDecay, Creature.isAlive, Metabolism.isAlive, Creature.canReproduce,
    Metabolism.canAfford, Creature.reproduce, Creature.new, Metabolism.new, Genome.fromParent,
    Metabolism.consumeEnergy, Metabolism.passiveHeal, Metabolism.heal,
    SimulationState.canSpawn, SimulationState.creatureAt, SpatialIndex.get, SpatialIndex.set,
    List.filter_cons, List.filterMap_cons, List.foldl_cons, List.foldl_nil,
    stateTwoRich, moverA, richB, genome0, cfgCap3, cfgRepro, oracleStay]

def cfgStarve : Config :=
  { cfgRepro with creature := { cfgRepro.creature with
      initial_population := 1, initial_energy := 1, energy_cost_per_tick := 10 } }

def starveC : Creature :=
  { id := 0, x := 0, y := 0, genome := genome0
    metabolism := { energy := 1, max_energy := 200, health := 100, max_health := 100 }
    last_reproduce_tick := 0, age := 0, offspring_count := 0, last_damage_taken := 0 }

def stateStarve : SimulationState :=
  { world := ⟨1, 1, [.Empty]⟩, creatures := [(0, starveC)]
    creature_positions := ⟨1, 1, [some 0]⟩, attacks_last_tick := [], recently_dead := []
    tick := 0, next_creature_id := 1, total_births := 0, total_deaths := 0 }

lemma rceil_zero : Rat.ceil 0 = 0 := rfl

/-- The starving creature after its metabolic steps: aged by one tick,
energy zeroed by the failed debit, health zeroed by the starvation damage. -/
def starvedC : Creature :=
  { id := 0, x := 0, y := 0, genome := genome0
    metabolism := { energy := 0, max_energy := 200, health := 0, max_health := 100 }
    last_reproduce_tick := 0, age := 1, offspring_count := 0, last_damage_taken := 0 }

lemma starve_ctx :
    tickCtx cfgStarve oracleStay stateStarve =
      { s := { stateStarve with creatures := [(0, starvedC)] }, pending := [], attacks := [] } := by
  norm_num [tickCtx, processCreature, stepAtoE, lookupC, modifyC, World.regenerateFood,
    World.ageAndDecayFood, CellType.ageFood, CellType.shouldDecay, Creature.isAlive,
    Metabolism.isAlive, Metabolism.consumeEnergy, Metabolism.passiveHeal, Metabolism.heal,
    Metabolism.takeDamage, stateStarve, starveC, starvedC, genome0, cfgStarve, cfgRepro,
    oracleStay, List.foldl_cons, List.foldl_nil]

lemma starve_after_deaths :
    tickAfterDeaths cfgStarve oracleStay stateStarve =
      { world := ⟨1, 1, [.Empty]⟩, creatures := []
        creature_positions := ⟨1, 1, [none]⟩, attacks_last_tick := []
        recently_dead := [starvedC], tick := 0, next_creature_id := 1, total_births := 0
        total_deaths := 1 } := by
  unfold tickAfterDeaths
  rw [starve_ctx]
  norm_num [deathsPhase, deathMaterialize, pushDead, commitBirths, Creature.isAlive,
    Metabolism.isAlive, Creature.energy, SimulationState.removeCreatureFromPosition,
    SpatialIndex.clear, rceil_zero, stateStarve, starvedC, List.filter_cons, List.foldl_cons,
    List.foldl_nil]

set_option maxHeartbeats 1600000 in
/-- Claim C4 (corrected): in the starvation scenario (one creature,
energy 1, per-tick cost 10, no food) the death and the resurrection happen
as claimed — `total_deaths` rises to 1 and the failsafe leaves population
1 (a fresh id with `initial_energy`) — but NO meat appears: the failed
energy debit zeroes the corpse's energy before death, so the meat amount
`ceil(0/20)` is 0 and the cell stays `Empty` (the spec's `ceil(1/20)=1`
presumes the pre-debit energy). -/
theorem solo_starvation_outcome :
    (tickStep cfgStarve oracleStay stateStarve).total_deaths = 1 ∧
    (tickStep cfgStarve oracleStay stateStarve).creatures.length = 1 ∧
    (lookupC (tickStep cfgStarve oracleStay stateStarve).creatures 1).map
        (fun c => (c.x, c.y, c.metabolism.energy, c.metabolism.health)) = some (0, 0, 1, 100) ∧
    (tickStep cfgStarve oracleStay stateStarve).world.get 0 0 = some CellType.Empty := by
  unfold tickStep
  rw [starve_after_deaths, starve_ctx]
  norm_num [failsafePhase, resurrectPos, insertC, lookupC, Creature.new, Metabolism.new,
    SpatialIndex.set, SpatialIndex.get, SimulationState.creatureAt, World.get, genome0,
    starvedC, stateStarve, cfgStarve, cfgRepro, oracleStay, List.range_succ, List.foldl_cons,
    List.foldl_nil, List.filter_cons, List.filterMap_cons]

set_option maxHeartbeats 1600000 in
/-- Counterexample for C4's meat conjunct: after the starvation tick the
dead creature's cell is `Empty`, not a meat cell of amount 1 — the corpse's
energy was zeroed by the failed debit before the death sweep computed the
meat amount. -/
theorem solo_starvation_no_meat_cex :
    (tickStep cfgStarve oracleStay stateStarve).world.grid = [CellType.Empty] ∧
    ∀ age, (tickStep cfgStarve oracleStay stateStarve).world.get 0 0
      ≠ some (CellType.Food 1 true age) := by
  unfold tickStep
  rw [starve_after_deaths, starve_ctx]
  norm_num [failsafePhase, resurrectPos, insertC, lookupC, Creature.new, Metabolism.new,
    SpatialIndex.set, SpatialIndex.get, SimulationState.creatureAt, World.get, genome0,
    starvedC, stateStarve, cfgStarve, cfgRepro, oracleStay, List.range_succ, List.foldl_cons,
    List.foldl_nil, List.filter_cons, List.filterMap_cons]
  exact fun age h => CellType.noConfusion h

set_option maxHeartbeats 1600000 in
/-- Counterexample for C5: across the starvation tick the failsafe
resurrects a creature without crediting `total_births`, so
`total_births − total_deaths + initial_population = 0 − 1 + 1 = 0` while
the population is 1 — the claimed inequality fails between ticks. -/
theorem counter_invariant_fails_on_resurrection_cex :
    ((tickStep cfgStarve oracleStay stateStarve).total_births : ℤ)
      - ((tickStep cfgStarve oracleStay stateStarve).total_deaths : ℤ)
      + (cfgStarve.creature.initial_population : ℤ) = 0 ∧
    ((tickStep cfgStarve oracleStay stateStarve).creatures.length : ℤ) = 1 := by
  unfold tickStep
  rw [starve_after_deaths, starve_ctx]
  norm_num [failsafePhase, resurrectPos, insertC, Creature.new, Metabolism.new,
    SpatialIndex.set, SpatialIndex.get, SimulationState.creatureAt, genome0, starvedC,
    stateStarve, cfgStarve, cfgRepro, oracleStay, List.range_succ, List.foldl_cons,
    List.foldl_nil, List.filter_cons, List.filterMap_cons]
